import Mathlib

set_option maxRecDepth 100000

/-!
# Verification of the Alodek DNS server core

A shallow embedding of the DNS resolver/forwarder implemented in the
repository (class `AlodekDNS`): the wire codec (`parseDNSQuery`,
`createDNSResponse`, `createDNSErrorResponse`), the record store
(`addRecord`, `removeRecord` over a JavaScript `Map`), the query
dispatcher (`handleDNSQuery`), and an event model of the upstream
forwarder (`forwardDNSQuery`).

Datagrams are modelled as `List Nat` of byte values.  Node `Buffer`
operations are modelled exactly, including their failure behaviour:
every `read*`/`write*` call that would throw `ERR_OUT_OF_RANGE` is an
`Option` returning `none`, while `Buffer.copy` clamps its ranges and
never throws, matching Node semantics.  A JavaScript exception
propagating to a `try`/`catch` is `Option.none` propagating through the
monadic chain.  Strings handled by the server (domain names, record
values) are ASCII in every behaviour the claims exercise, so domain
names are kept as raw byte lists (the UTF-8 decode in
`msg.toString('utf8', …)` is the identity on them) and record values as
Lean `String`s.
-/

namespace Alodek

/-! ## Node Buffer primitives -/

/-- Model of `buf.readUInt8(off)`: the byte at `off`, throwing
(`none`) when `off` is out of range. -/
def readUInt8 (buf : List Nat) (off : Nat) : Option Nat := buf[off]?

/-- Model of `buf.readUInt16BE(off)`: big-endian 16-bit read, throwing
(`none`) unless both bytes exist. -/
def readUInt16BE (buf : List Nat) (off : Nat) : Option Nat :=
  match buf[off]?, buf[off + 1]? with
  | some hi, some lo => some (256 * hi + lo)
  | _, _ => none

/-- Overwrite the bytes of `buf` starting at `off` with `xs`, clamping at
the ends of `buf` (the length of the result always equals the length of
`buf`).  This is the core of both `Buffer.copy` (which clamps in Node)
and the checked `write*` calls (whose bounds checks are made explicit at
each call site). -/
def listSplice (buf : List Nat) (off : Nat) (xs : List Nat) : List Nat :=
  buf.take off ++ xs.take (buf.length - off) ++ buf.drop (off + xs.length)

/-- Model of `buf.writeUInt8(v, off)`.  Node throws (`none`) when the
value is not an integer in `0..255` — in particular for `NaN`, which is
why the value is an `Int` produced by `jsParseInt` — or when `off` is
out of range. -/
def writeUInt8 (buf : List Nat) (v : Int) (off : Nat) : Option (List Nat) :=
  if 0 ≤ v ∧ v ≤ 255 ∧ off + 1 ≤ buf.length then
    some (listSplice buf off [v.toNat])
  else none

/-- Model of `buf.writeUInt16BE(v, off)`: big-endian write of a value in
`0..65535`, throwing (`none`) on a value or offset out of range. -/
def writeUInt16BE (buf : List Nat) (v : Nat) (off : Nat) : Option (List Nat) :=
  if v ≤ 65535 ∧ off + 2 ≤ buf.length then
    some (listSplice buf off [v / 256, v % 256])
  else none

/-- Big-endian byte decomposition of a 32-bit value, as written by
`buf.writeUInt32BE`. -/
def be32 (v : Nat) : List Nat :=
  [v / 16777216, v / 65536 % 256, v / 256 % 256, v % 256]

/-- Model of `buf.writeUInt32BE(v, off)`. -/
def writeUInt32BE (buf : List Nat) (v : Nat) (off : Nat) : Option (List Nat) :=
  if v ≤ 4294967295 ∧ off + 4 ≤ buf.length then
    some (listSplice buf off (be32 v))
  else none

/-- Model of `src.copy(dst, dstStart, srcStart, srcEnd)`: Node clamps all
ranges to the buffers involved and never throws; the result keeps the
length of `dst`. -/
def bufCopy (src dst : List Nat) (dstStart srcStart srcEnd : Nat) : List Nat :=
  listSplice dst dstStart ((src.take srcEnd).drop srcStart)

/-! ## JavaScript helpers: `parseInt` and `Map` -/

/-- JavaScript string whitespace (the characters `String.prototype.trim`
and `parseInt` skip, restricted to the ASCII ones that can occur in this
server's record values). -/
def isJsSpace (c : Char) : Bool :=
  c = ' ' ∨ c = '\t' ∨ c = '\n' ∨ c = '\r' ∨ c = '\x0b' ∨ c = '\x0c'

/-- Whitespace trim on a character list (structurally recursive model of
`String.prototype.trim`). -/
def jsTrim (cs : List Char) : List Char :=
  ((cs.dropWhile isJsSpace).reverse.dropWhile isJsSpace).reverse

/-- Structurally recursive model of JavaScript `s.split('.')` on a
character list: split at every `'.'`, keeping empty pieces, with `[""]`
for the empty string. -/
def splitDot : List Char → List (List Char)
  | [] => [[]]
  | c :: t =>
    if c = '.' then [] :: splitDot t
    else
      match splitDot t with
      | [] => [[c]]
      | h :: r => (c :: h) :: r

/-- JavaScript `record.value.split('.')` as Lean strings. -/
def jsSplit (s : String) : List String :=
  (splitDot s.toList).map (fun cs => String.mk cs)

/-- Value of a hexadecimal digit character, if any. -/
def hexVal (c : Char) : Option Nat :=
  if c.isDigit then some (c.toNat - 48)
  else if 'a' ≤ c ∧ c ≤ 'f' then some (c.toNat - 87)
  else if 'A' ≤ c ∧ c ≤ 'F' then some (c.toNat - 55)
  else none

/-- Accumulate a digit list in the given base. -/
def digitsToNat (base : Nat) (ds : List Nat) : Nat :=
  ds.foldl (fun acc d => acc * base + d) 0

/-- Model of JavaScript `parseInt(s)` (radix unspecified): trim
whitespace, optional sign, then an optional `0x`/`0X` hexadecimal prefix
or a run of decimal digits; `NaN` (here `none`) when no digit follows.
Parsing stops at the first character that is not a digit of the chosen
base, as `parseInt` does. -/
def jsParseInt (s : String) : Option Int :=
  let cs := jsTrim s.toList
  let signed : Bool × List Char :=
    match cs with
    | '-' :: t => (true, t)
    | '+' :: t => (false, t)
    | _ => (false, cs)
  let rest := signed.2
  let digits : Option (List Nat) :=
    match rest with
    | '0' :: 'x' :: t => some ((t.takeWhile (fun c => (hexVal c).isSome)).filterMap hexVal)
    | '0' :: 'X' :: t => some ((t.takeWhile (fun c => (hexVal c).isSome)).filterMap hexVal)
    | _ => none
  match digits with
  | some hs =>
    if hs.isEmpty then none
    else some (if signed.1 then -(digitsToNat 16 hs : Int) else (digitsToNat 16 hs : Int))
  | none =>
    let ds := (rest.takeWhile Char.isDigit).map (fun c => c.toNat - 48)
    if ds.isEmpty then none
    else some (if signed.1 then -(digitsToNat 10 ds : Int) else (digitsToNat 10 ds : Int))

/-- A stored DNS record: `{ type, value, ttl }` as kept in
`this.dnsRecords`. -/
structure DNSRecord where
  type : String
  value : String
  ttl : Nat
deriving DecidableEq, Repr

/-- The `dnsRecords` JavaScript `Map`, as an insertion-ordered
association list from (already lower-cased) domain byte strings to
records. -/
abbrev RecordStore := List (List Nat × DNSRecord)

/-- ASCII lower-casing of a domain byte string, the behaviour of
JavaScript `String.prototype.toLowerCase` on the ASCII domains the
server handles. -/
def lowerBytes (s : List Nat) : List Nat :=
  s.map (fun b => if 65 ≤ b ∧ b ≤ 90 then b + 32 else b)

/-- Model of `Map.prototype.get`. -/
def mapGet (m : RecordStore) (k : List Nat) : Option DNSRecord :=
  (m.find? (fun p => p.1 = k)).map (fun p => p.2)

/-- Model of `Map.prototype.set`: overwrite in place when the key is
present (insertion order kept), append otherwise. -/
def mapSet (m : RecordStore) (k : List Nat) (v : DNSRecord) : RecordStore :=
  if m.any (fun p => p.1 = k) then
    m.map (fun p => if p.1 = k then (p.1, v) else p)
  else m ++ [(k, v)]

/-- Model of `Map.prototype.delete`: returns whether the key was present
together with the map after removal. -/
def mapDelete (m : RecordStore) (k : List Nat) : Bool × RecordStore :=
  (m.any (fun p => p.1 = k), m.filter (fun p => ¬ p.1 = k))

/-- `AlodekDNS.addRecord(domain, type, value, ttl)`:
`this.dnsRecords.set(domain.toLowerCase(), { type, value, ttl })`. -/
def addRecord (store : RecordStore) (domain : List Nat) (type value : String)
    (ttl : Nat) : RecordStore :=
  mapSet store (lowerBytes domain) ⟨type, value, ttl⟩

/-- `AlodekDNS.removeRecord(domain)`:
`this.dnsRecords.delete(domain.toLowerCase())`, returning the boolean. -/
def removeRecord (store : RecordStore) (domain : List Nat) : Bool × RecordStore :=
  mapDelete store (lowerBytes domain)

/-! ## The wire codec -/

/-- Parsed header fields, in the order `parseDNSQuery` reads them. -/
structure DNSHeader where
  id : Nat
  flags : Nat
  qdcount : Nat
  ancount : Nat
  nscount : Nat
  arcount : Nat
deriving DecidableEq, Repr

/-- The structure returned by `parseDNSQuery` (the `class` field is
spelled `qclass`, `class` being a Lean keyword; `typeString` is a pure
function of `type` and is omitted). The domain is the byte string of the
labels joined with `'.'` (byte 46). -/
structure DNSQuery where
  header : DNSHeader
  domain : List Nat
  type : Nat
  qclass : Nat
deriving DecidableEq, Repr

/-- The domain-name loop of `parseDNSQuery`: starting at `off`, read a
length byte; zero ends the name (returning the labels and the offset
just past the zero byte); otherwise take that many bytes as a label
(`msg.toString` clamps at the end of the buffer, hence the un-checked
`take`) and continue after it.  In JavaScript the loop terminates
because `offset` strictly increases until `readUInt8` throws; `fuel`
(always instantiated at more than the number of possible iterations)
only makes that termination structural. -/
def parseName (msg : List Nat) : Nat → Nat → Option (List (List Nat) × Nat)
  | 0, _ => none
  | fuel + 1, off =>
    match readUInt8 msg off with
    | none => none
    | some 0 => some ([], off + 1)
    | some (n + 1) =>
      match parseName msg fuel (off + (n + 1) + 1) with
      | none => none
      | some (labels, endOff) =>
        some ((msg.drop (off + 1)).take (n + 1) :: labels, endOff)

/-- `AlodekDNS.parseDNSQuery(msg)`: six big-endian header reads, the
domain-name loop from offset 12, then the query type and class right
after the name.  `none` is the `RangeError` a short or truncated buffer
raises. -/
def parseDNSQuery (msg : List Nat) : Option DNSQuery := do
  let id ← readUInt16BE msg 0
  let flags ← readUInt16BE msg 2
  let qdcount ← readUInt16BE msg 4
  let ancount ← readUInt16BE msg 6
  let nscount ← readUInt16BE msg 8
  let arcount ← readUInt16BE msg 10
  let parsedName ← parseName msg (msg.length + 1) 12
  let type ← readUInt16BE msg parsedName.2
  let qclass ← readUInt16BE msg (parsedName.2 + 2)
  pure ⟨⟨id, flags, qdcount, ancount, nscount, arcount⟩,
    List.intercalate [46] parsedName.1, type, qclass⟩

/-- The question-copy loop of `createDNSResponse`:
`while (originalMsg.readUInt8(offset) !== 0) { response.writeUInt8(originalMsg.readUInt8(offset), offset); offset++; }`.
Stops before writing the zero byte; `none` when either the read from the
original message or the write into the 512-byte response throws.  As in
`parseName`, `fuel` only makes the JavaScript termination argument
(offset strictly increases until a read or write throws) structural. -/
def copyName (msg : List Nat) : Nat → List Nat → Nat → Option (List Nat × Nat)
  | 0, _, _ => none
  | fuel + 1, buf, off =>
    match readUInt8 msg off with
    | none => none
    | some 0 => some (buf, off)
    | some (n + 1) =>
      match writeUInt8 buf ((n : Int) + 1) off with
      | none => none
      | some buf1 => copyName msg fuel buf1 (off + 1)

/-- The A-record resource-data loop of `createDNSResponse`:
`ipParts.forEach(part => { response.writeUInt8(parseInt(part), offset); offset++; })`.
An exception in the callback (a `NaN` or out-of-range `parseInt` result,
or an out-of-range offset) propagates out of `forEach`. -/
def writeIPParts : List String → List Nat → Nat → Option (List Nat × Nat)
  | [], buf, off => some (buf, off)
  | p :: ps, buf, off =>
    match jsParseInt p with
    | none => none
    | some v =>
      match writeUInt8 buf v off with
      | none => none
      | some buf1 => writeIPParts ps buf1 (off + 1)

/-- `AlodekDNS.createDNSResponse(query, record, originalMsg)`, translated
statement by statement.  The `query` argument is unused by the source
(everything is re-derived from `originalMsg`); it is kept for fidelity.
The result is `response.slice(0, offset)` of the 512-byte buffer. -/
def createDNSResponse (query : DNSQuery) (record : DNSRecord)
    (originalMsg : List Nat) : Option (List Nat) := do
  let response := List.replicate 512 0
  let response := bufCopy originalMsg response 0 0 12
  let response ← writeUInt16BE response 0x8180 2
  let response ← writeUInt16BE response 1 6
  let copied ← copyName originalMsg 513 response 12
  let response := copied.1
  let off := copied.2
  let response ← writeUInt8 response 0 off
  let off := off + 1
  let response := bufCopy originalMsg response off off (off + 4)
  let off := off + 4
  let response ← writeUInt16BE response 0xC00C off
  let off := off + 2
  let response ← writeUInt16BE response (if record.type = "A" then 1 else 1) off
  let off := off + 2
  let response ← writeUInt16BE response 1 off
  let off := off + 2
  let response ← writeUInt32BE response record.ttl off
  let off := off + 4
  if record.type = "A" then
    let response ← writeUInt16BE response 4 off
    let off := off + 2
    let final ← writeIPParts (jsSplit record.value) response off
    pure (final.1.take final.2)
  else
    pure (response.take off)

/-- `AlodekDNS.createDNSErrorResponse(originalMsg)`: allocate a buffer of
the original's length, copy the original into it, and write `0x8183`
(response, name error) at offset 2.  The write throws (`none`) when the
original is shorter than 4 bytes. -/
def createDNSErrorResponse (originalMsg : List Nat) : Option (List Nat) := do
  let response := List.replicate originalMsg.length 0
  let response := bufCopy originalMsg response 0 0 originalMsg.length
  let response ← writeUInt16BE response 0x8183 2
  pure response

/-! ## The query dispatcher -/

/-- The externally visible outcome of `handleDNSQuery` on one inbound
datagram: answer sent from a local hit, handed to the upstream
forwarder, synthesized error response sent from the `catch` block, or an
exception escaping `handleDNSQuery` (only possible when
`createDNSErrorResponse` itself throws inside the `catch`). -/
inductive HandleResult where
  | respond (datagram : List Nat)
  | forward
  | errorRespond (datagram : List Nat)
  | crash
deriving DecidableEq, Repr

/-- `AlodekDNS.handleDNSQuery(msg, rinfo)`: parse, look the domain up
with `this.dnsRecords.get(query.domain.toLowerCase())`, answer a hit
with `createDNSResponse`, forward a miss; any exception from parsing or
serializing reaches the `catch` block, which sends
`createDNSErrorResponse(msg)` — and an exception inside the `catch`
escapes the handler. -/
def handleDNSQuery (store : RecordStore) (msg : List Nat) : HandleResult :=
  match parseDNSQuery msg with
  | some query =>
    match mapGet store (lowerBytes query.domain) with
    | some record =>
      match createDNSResponse query record msg with
      | some response => .respond response
      | none =>
        match createDNSErrorResponse msg with
        | some e => .errorRespond e
        | none => .crash
    | none => .forward
  | none =>
    match createDNSErrorResponse msg with
    | some e => .errorRespond e
    | none => .crash

/-! ## Event model of the upstream forwarder

`forwardDNSQuery` opens an ephemeral socket, sends the query upstream,
and installs two completions: the socket's `message` handler (relay the
reply to the client, then `upstreamSocket.close()`) and a
`setTimeout(…, 5000)` (close the socket, then send
`createDNSErrorResponse(msg)` to the client).  The source never calls
`clearTimeout`, so the timer fires in every execution; `dgram` delivers
no `message` events after `close()`, and `close()` on an already-closed
socket throws `ERR_SOCKET_DGRAM_NOT_RUNNING`. -/

/-- A datagram or exception observable from outside the forwarder. -/
inductive ForwardObs where
  | relayToClient (datagram : List Nat)
  | errorToClient (datagram : List Nat)
  | exception
deriving DecidableEq, Repr

/-- The upstream socket's `message` handler.  It only runs while the
socket is open (so the state argument is `true` at every call the trace
semantics makes): it relays the reply to the original client and closes
the socket. -/
def onUpstreamMessage (reply : List Nat) (_socketOpen : Bool) :
    Bool × List ForwardObs :=
  (false, [.relayToClient reply])

/-- The `setTimeout` callback.  It first calls `upstreamSocket.close()`:
on an already-closed socket this throws before the error response is
sent, so the only observation is the escaping exception; on an open
socket it closes and then sends `createDNSErrorResponse(originalMsg)`
(whose own exception, for a short original, would also escape). -/
def onUpstreamTimeout (originalMsg : List Nat) (socketOpen : Bool) :
    Bool × List ForwardObs :=
  if socketOpen then
    match createDNSErrorResponse originalMsg with
    | some e => (false, [.errorToClient e])
    | none => (false, [.exception])
  else (false, [.exception])

/-- The observable trace of one forwarded query, by whether the upstream
reply arrives before the fixed 5-second deadline.  If it does, the
`message` handler runs first and the never-cancelled timer still fires
afterwards; if it does not, the timer runs with the socket open, and a
later reply is never delivered to the closed socket (no further
events). -/
def forwardTrace (originalMsg reply : List Nat) (replyBeforeTimeout : Bool) :
    List ForwardObs :=
  if replyBeforeTimeout then
    let step1 := onUpstreamMessage reply true
    let step2 := onUpstreamTimeout originalMsg step1.1
    step1.2 ++ step2.2
  else
    (onUpstreamTimeout originalMsg true).2

/-! ## Encoded-name helpers used by the theorems -/

/-- The wire encoding of a label list: each label as a length byte
followed by its bytes (the terminating zero byte is written separately
where it occurs). -/
def encodeLabels (labels : List (List Nat)) : List Nat :=
  labels.foldr (fun l acc => (l.length :: l) ++ acc) []

/-- Well-formedness of the labels of a standard DNS question name: every
label is 1–63 bytes of non-NUL ASCII.  (Label bytes must be non-zero for
the byte-scanning question-echo loop of `createDNSResponse` to agree
with the label-structured parse, and ASCII so that the UTF-8 decode into
a JavaScript string is the identity on bytes.) -/
def wfLabels (labels : List (List Nat)) : Prop :=
  ∀ l ∈ labels, (1 ≤ l.length ∧ l.length ≤ 63) ∧ ∀ byte ∈ l, 1 ≤ byte ∧ byte ≤ 127

instance (labels : List (List Nat)) : Decidable (wfLabels labels) := by
  unfold wfLabels; infer_instance

/-- Big-endian 16-bit value at an index of a byte list (total, with
default 0), used to state what the checked reads return. -/
def u16 (l : List Nat) (i : Nat) : Nat :=
  256 * l.getD i 0 + l.getD (i + 1) 0

/-! ## Concrete datagrams and stores used by counterexamples and
witnesses -/

/-- A well-formed one-question query: transaction id 42, standard query
flags, `qdcount` 1, question name `x` (one label, byte 120), query type
A (1), class IN (1). -/
def qMsg : List Nat :=
  [0, 42, 1, 0, 0, 1, 0, 0, 0, 0, 0, 0] ++ [1, 120, 0] ++ [0, 1, 0, 1]

/-- A store holding an A record for domain `x` with value `1.2.3.4` and
TTL 300. -/
def qStore : RecordStore := [([120], ⟨"A", "1.2.3.4", 300⟩)]

/-- The same query with query type AAAA (28), for the answer-type-field
counterexample. -/
def qMsgAAAA : List Nat :=
  [0, 42, 1, 0, 0, 1, 0, 0, 0, 0, 0, 0] ++ [1, 120, 0] ++ [0, 28, 0, 1]

/-- A store holding an AAAA record for domain `x`. -/
def qStoreAAAA : RecordStore := [([120], ⟨"AAAA", "::1", 300⟩)]

/-- A two-question query (`qdcount` 2): first question `x` type A class
IN, second question `y` (byte 121) type A class IN. -/
def qMsgTwo : List Nat :=
  [0, 7, 1, 0, 0, 2, 0, 0, 0, 0, 0, 0] ++ [1, 120, 0] ++ [0, 1, 0, 1]
    ++ [1, 121, 0, 0, 1, 0, 1]

/-- A store holding an A record for `x` whose value `1.2.3` is not a
dotted-quad (three parts only). -/
def qStoreThreeParts : RecordStore := [([120], ⟨"A", "1.2.3", 300⟩)]

/-- A store holding an A record for `x` whose value is the non-numeric
string `hello`. -/
def qStoreHello : RecordStore := [([120], ⟨"A", "hello", 300⟩)]

/-- A 513-byte inbound datagram of `0xFF` bytes (UDP allows datagrams
far larger than 512 bytes); its parse fails, so the server answers with
a synthesized error response of the same 513-byte length. -/
def bigMsg : List Nat := List.replicate 513 255

/-! ## Helper lemmas about the buffer model -/

theorem listSplice_length (buf : List Nat) (off : Nat) (xs : List Nat) :
    (listSplice buf off xs).length = buf.length := by
  simp only [listSplice, List.length_append, List.length_take,
    List.length_drop]
  omega

theorem listSplice_of_le (buf : List Nat) (off : Nat) (xs : List Nat)
    (h : off + xs.length ≤ buf.length) :
    listSplice buf off xs = buf.take off ++ xs ++ buf.drop (off + xs.length) := by
  unfold listSplice
  have hx : xs.take (buf.length - off) = xs := List.take_of_length_le (by omega)
  rw [hx]

theorem splice_into_zeros (P : List Nat) (m : Nat) (xs : List Nat)
    (hx : xs.length ≤ m) :
    listSplice (P ++ List.replicate m 0) P.length xs
      = P ++ xs ++ List.replicate (m - xs.length) 0 := by
  rw [listSplice_of_le]
  · rw [List.take_append_eq_append_take, List.drop_append_eq_append_drop]
    have h1 : List.replicate m (0 : Nat)
        = List.replicate xs.length 0 ++ List.replicate (m - xs.length) 0 := by
      rw [← List.replicate_add]
      congr 1
      omega
    simp [h1, List.drop_append_eq_append_drop]
  · simp only [List.length_append, List.length_replicate]
    omega

/-! ## Wire-codec characterization lemmas and claim theorems -/

theorem encodeLabels_cons (l : List Nat) (ls : List (List Nat)) :
    encodeLabels (l :: ls) = l.length :: (l ++ encodeLabels ls) := by
  simp [encodeLabels]

theorem getElem_after (pre : List Nat) (x : Nat) (xs : List Nat) :
    (pre ++ (x :: xs))[pre.length]? = some x := by
  rw [List.getElem?_append_right (le_refl _)]
  simp

theorem drop_after (pre : List Nat) (x : Nat) (xs : List Nat) :
    (pre ++ (x :: xs)).drop (pre.length + 1) = xs := by
  rw [List.drop_append_eq_append_drop]
  simp

theorem take_at (l xs : List Nat) : (l ++ xs).take l.length = l :=
  List.take_left l xs

theorem parseName_spec (labels : List (List Nat)) :
    ∀ (pre rest : List Nat) (fuel : Nat),
      wfLabels labels →
      labels.length + 1 ≤ fuel →
      parseName (pre ++ (encodeLabels labels ++ (0 :: rest))) fuel pre.length
        = some (labels, pre.length + (encodeLabels labels).length + 1) := by
  induction labels with
  | nil =>
    intro pre rest fuel _hwf hfuel
    match fuel, hfuel with
    | fuel + 1, _ =>
      have hr : readUInt8 (pre ++ (encodeLabels [] ++ (0 :: rest))) pre.length
          = some 0 := by
        unfold readUInt8
        have h0 : encodeLabels [] ++ (0 :: rest) = 0 :: rest := by
          simp [encodeLabels]
        rw [h0, getElem_after]
      simp only [parseName, hr]
      simp [encodeLabels]
  | cons l ls ih =>
    intro pre rest fuel hwf hfuel
    have hl : 1 ≤ l.length := (hwf l (by simp)).1.1
    obtain ⟨n, hn⟩ : ∃ n, l.length = n + 1 := ⟨l.length - 1, by omega⟩
    match fuel, hfuel with
    | fuel + 1, hfuel =>
      have hshape : encodeLabels (l :: ls) ++ (0 :: rest)
          = (n + 1) :: (l ++ (encodeLabels ls ++ (0 :: rest))) := by
        rw [encodeLabels_cons, ← hn]
        simp
      have hr : readUInt8 (pre ++ (encodeLabels (l :: ls) ++ (0 :: rest))) pre.length
          = some (n + 1) := by
        unfold readUInt8
        rw [hshape, getElem_after]
      have hdrop : (pre ++ (encodeLabels (l :: ls) ++ (0 :: rest))).drop (pre.length + 1)
          = l ++ (encodeLabels ls ++ (0 :: rest)) := by
        rw [hshape, drop_after]
      have htake : (l ++ (encodeLabels ls ++ (0 :: rest))).take (n + 1) = l := by
        rw [← hn, take_at]
      have hlen2 : pre.length + (n + 1) + 1 = (pre ++ ((n + 1) :: l)).length := by
        simp only [List.length_append, List.length_cons, hn]
        omega
      have hpre2 : pre ++ (encodeLabels (l :: ls) ++ (0 :: rest))
          = (pre ++ ((n + 1) :: l)) ++ (encodeLabels ls ++ (0 :: rest)) := by
        rw [hshape]
        simp
      have hlength : ls.length + 1 ≤ fuel := by
        simp only [List.length_cons] at hfuel
        omega
      have hrec : parseName (pre ++ (encodeLabels (l :: ls) ++ (0 :: rest))) fuel
          (pre.length + (n + 1) + 1)
          = some (ls, (pre.length + (n + 1) + 1) + (encodeLabels ls).length + 1) := by
        rw [hpre2, hlen2]
        exact ih (pre ++ ((n + 1) :: l)) rest fuel
          (fun x hx => hwf x (by simp [hx])) hlength
      simp only [parseName, hr, hrec, hdrop, htake]
      rw [encodeLabels_cons]
      simp only [List.length_cons, List.length_append]
      congr 2
      omega

theorem labels_length_le (labels : List (List Nat)) :
    labels.length ≤ (encodeLabels labels).length := by
  induction labels with
  | nil => simp [encodeLabels]
  | cons l ls ih =>
    rw [encodeLabels_cons]
    simp only [List.length_cons, List.length_append]
    omega

theorem readUInt16BE_eq (msg : List Nat) (i : Nat) (h : i + 2 ≤ msg.length) :
    readUInt16BE msg i = some (u16 msg i) := by
  unfold readUInt16BE u16
  have h1 : msg[i]? = some (msg.getD i 0) := by
    rw [List.getElem?_eq_getElem (by omega), List.getD_eq_getElem msg 0 (by omega)]
  have h2 : msg[i + 1]? = some (msg.getD (i + 1) 0) := by
    rw [List.getElem?_eq_getElem (by omega), List.getD_eq_getElem msg 0 (by omega)]
  rw [h1, h2]

theorem u16_append_left (pre t : List Nat) (i : Nat) (h : i + 2 ≤ pre.length) :
    u16 (pre ++ t) i = u16 pre i := by
  unfold u16
  rw [List.getD_append _ _ _ _ (by omega), List.getD_append _ _ _ _ (by omega)]

theorem read16_left (pre t : List Nat) (i : Nat) (h : i + 2 ≤ pre.length) :
    readUInt16BE (pre ++ t) i = some (u16 pre i) := by
  rw [readUInt16BE_eq _ _ (by simp; omega), u16_append_left _ _ _ h]

theorem u16_append_right (pre t : List Nat) (i : Nat) :
    u16 (pre ++ t) (pre.length + i) = u16 t i := by
  unfold u16
  rw [List.getD_append_right _ _ _ _ (by omega),
    show pre.length + i + 1 = pre.length + (i + 1) by omega,
    List.getD_append_right _ _ _ _ (by omega)]
  simp

theorem read16_right (pre t : List Nat) (i : Nat) (h : i + 2 ≤ t.length) :
    readUInt16BE (pre ++ t) (pre.length + i) = some (u16 t i) := by
  rw [readUInt16BE_eq _ _ (by simp; omega), u16_append_right]

theorem parseDNSQuery_spec (hdr : List Nat) (labels : List (List Nat))
    (rest : List Nat) (hh : hdr.length = 12) (hwf : wfLabels labels)
    (hr : 4 ≤ rest.length) :
    parseDNSQuery (hdr ++ (encodeLabels labels ++ (0 :: rest)))
      = some ⟨⟨u16 hdr 0, u16 hdr 2, u16 hdr 4, u16 hdr 6, u16 hdr 8, u16 hdr 10⟩,
          List.intercalate [46] labels, u16 rest 0, u16 rest 2⟩ := by
  set msg := hdr ++ (encodeLabels labels ++ (0 :: rest)) with hmsg
  have hlen : msg.length = 13 + (encodeLabels labels).length + rest.length := by
    simp [hmsg]
    omega
  have hread : ∀ i : Nat, i + 2 ≤ 12 →
      readUInt16BE msg i = some (u16 hdr i) := by
    intro i hi
    rw [hmsg, show hdr ++ (encodeLabels labels ++ (0 :: rest))
      = hdr ++ (encodeLabels labels ++ (0 :: rest)) from rfl]
    exact read16_left _ _ _ (by omega)
  have hname : parseName msg (msg.length + 1) 12
      = some (labels, 12 + (encodeLabels labels).length + 1) := by
    rw [hmsg, ← hh]
    exact parseName_spec labels hdr rest (msg.length + 1) hwf
      (by have := labels_length_le labels; omega)
  have hsplit : msg = (hdr ++ (encodeLabels labels ++ [0])) ++ rest := by
    simp [hmsg]
  have hplen : (hdr ++ (encodeLabels labels ++ [0])).length
      = 12 + (encodeLabels labels).length + 1 := by
    simp [hh]
    omega
  have htype : readUInt16BE msg (12 + (encodeLabels labels).length + 1)
      = some (u16 rest 0) := by
    have h0 := read16_right (hdr ++ (encodeLabels labels ++ [0])) rest 0 (by omega)
    rw [hplen, Nat.add_zero, ← hsplit] at h0
    exact h0
  have hclass : readUInt16BE msg (12 + (encodeLabels labels).length + 1 + 2)
      = some (u16 rest 2) := by
    have h0 := read16_right (hdr ++ (encodeLabels labels ++ [0])) rest 2 (by omega)
    rw [hplen, ← hsplit] at h0
    exact h0
  simp only [parseDNSQuery, hread 0 (by omega), hread 2 (by omega),
    hread 4 (by omega), hread 6 (by omega), hread 8 (by omega),
    hread 10 (by omega), hname, htype, hclass, Option.bind_eq_bind,
    Option.some_bind, Option.pure_def]

theorem listSplice_nil (buf : List Nat) (off : Nat) :
    listSplice buf off [] = buf := by
  unfold listSplice
  simp

theorem splice_cons (buf : List Nat) (off x : Nat) (xs : List Nat)
    (h : off + xs.length + 1 ≤ buf.length) :
    listSplice (listSplice buf off [x]) (off + 1) xs
      = listSplice buf off (x :: xs) := by
  have hb : listSplice buf off [x]
      = (buf.take off ++ [x]) ++ buf.drop (off + 1) := by
    rw [listSplice_of_le _ _ _ (by simp; omega)]
    simp
  have hA : (buf.take off ++ [x]).length = off + 1 := by
    simp [List.length_take]
    omega
  rw [hb, listSplice_of_le _ _ _ (by simp [List.length_take, List.length_drop]; omega),
    listSplice_of_le _ _ _ (by simp; omega)]
  have h1 : ((buf.take off ++ [x]) ++ buf.drop (off + 1)).take (off + 1)
      = buf.take off ++ [x] := by
    rw [show off + 1 = (buf.take off ++ [x]).length + 0 by rw [hA],
      List.take_append]
    simp
  have h2 : ((buf.take off ++ [x]) ++ buf.drop (off + 1)).drop (off + 1 + xs.length)
      = buf.drop (off + (x :: xs).length) := by
    rw [show off + 1 + xs.length = (buf.take off ++ [x]).length + xs.length by
      rw [hA], List.drop_append, List.drop_drop]
    congr 1
    simp
    omega
  rw [h1, h2]
  simp

theorem copyName_succ (msg : List Nat) (fuel : Nat) (buf : List Nat) (off : Nat) :
    copyName msg (fuel + 1) buf off
      = match readUInt8 msg off with
        | none => none
        | some 0 => some (buf, off)
        | some (n + 1) =>
          match writeUInt8 buf ((n : Int) + 1) off with
          | none => none
          | some buf1 => copyName msg fuel buf1 (off + 1) := rfl

theorem copyName_spec (bytes : List Nat) :
    ∀ (pre rest buf : List Nat) (fuel : Nat),
      (∀ x ∈ bytes, 1 ≤ x ∧ x ≤ 255) →
      bytes.length + 1 ≤ fuel →
      pre.length + bytes.length ≤ buf.length →
      copyName (pre ++ (bytes ++ (0 :: rest))) fuel buf pre.length
        = some (listSplice buf pre.length bytes, pre.length + bytes.length) := by
  induction bytes with
  | nil =>
    intro pre rest buf fuel _hb hfuel _hlen
    match fuel, hfuel with
    | fuel + 1, _ =>
      have hr : readUInt8 (pre ++ ([] ++ (0 :: rest))) pre.length = some 0 := by
        unfold readUInt8
        simp only [List.nil_append]
        exact getElem_after pre 0 rest
      rw [copyName_succ, hr]
      simp [listSplice_nil]
  | cons x xs ih =>
    intro pre rest buf fuel hb hfuel hlen
    have hx1 : 1 ≤ x := (hb x (by simp)).1
    have hx255 : x ≤ 255 := (hb x (by simp)).2
    obtain ⟨n, hn⟩ : ∃ n, x = n + 1 := ⟨x - 1, by omega⟩
    match fuel, hfuel with
    | fuel + 1, hfuel =>
      have hshape : pre ++ ((x :: xs) ++ (0 :: rest))
          = pre ++ (x :: (xs ++ (0 :: rest))) := by simp
      have hr : readUInt8 (pre ++ ((x :: xs) ++ (0 :: rest))) pre.length
          = some (n + 1) := by
        unfold readUInt8
        rw [hshape, ← hn, getElem_after]
      have hlen2 : pre.length + xs.length + 1 ≤ buf.length := by
        simp only [List.length_cons] at hlen
        omega
      have hw : writeUInt8 buf ((n : Int) + 1) pre.length
          = some (listSplice buf pre.length [x]) := by
        unfold writeUInt8
        have hcond : (0 : Int) ≤ (n : Int) + 1 ∧ ((n : Int) + 1) ≤ 255
            ∧ pre.length + 1 ≤ buf.length := ⟨by omega, by omega, by omega⟩
        rw [if_pos hcond]
        have hxn : ((n : Int) + 1).toNat = x := by omega
        rw [hxn]
      have hrec : copyName (pre ++ ((x :: xs) ++ (0 :: rest))) fuel
          (listSplice buf pre.length [x]) (pre.length + 1)
          = some (listSplice (listSplice buf pre.length [x]) (pre.length + 1) xs,
              pre.length + 1 + xs.length) := by
        have hmsg2 : pre ++ ((x :: xs) ++ (0 :: rest))
            = (pre ++ [x]) ++ (xs ++ (0 :: rest)) := by simp
        have hoff2 : pre.length + 1 = (pre ++ [x]).length := by simp
        have hfuel2 : xs.length + 1 ≤ fuel := by
          simp only [List.length_cons] at hfuel
          omega
        have hblen : (pre ++ [x]).length + xs.length
            ≤ (listSplice buf pre.length [x]).length := by
          rw [listSplice_length]
          simp
          omega
        rw [hmsg2]
        calc copyName ((pre ++ [x]) ++ (xs ++ (0 :: rest))) fuel
              (listSplice buf pre.length [x]) (pre.length + 1)
            = copyName ((pre ++ [x]) ++ (xs ++ (0 :: rest))) fuel
              (listSplice buf pre.length [x]) (pre ++ [x]).length := by rw [hoff2]
          _ = some (listSplice (listSplice buf pre.length [x]) (pre ++ [x]).length xs,
              (pre ++ [x]).length + xs.length) :=
            ih (pre ++ [x]) rest (listSplice buf pre.length [x]) fuel
              (fun y hy => hb y (by simp [hy])) hfuel2 hblen
          _ = some (listSplice (listSplice buf pre.length [x]) (pre.length + 1) xs,
              pre.length + 1 + xs.length) := by rw [← hoff2]
      rw [copyName_succ, hr]
      simp only [hw, hrec]
      rw [splice_cons _ _ _ _ (by omega)]
      simp only [List.length_cons]
      rw [show pre.length + 1 + xs.length = pre.length + (xs.length + 1) from by omega]

theorem writeIPParts_spec (parts : List String) :
    ∀ (vals : List Int) (buf : List Nat) (off : Nat),
      parts.map jsParseInt = vals.map some →
      (∀ v ∈ vals, 0 ≤ v ∧ v ≤ 255) →
      off + vals.length ≤ buf.length →
      writeIPParts parts buf off
        = some (listSplice buf off (vals.map Int.toNat), off + vals.length) := by
  induction parts with
  | nil =>
    intro vals buf off hmap _hv _hlen
    have hv : vals = [] := by
      cases vals with
      | nil => rfl
      | cons v vs => simp at hmap
    subst hv
    simp only [writeIPParts, List.map_nil, listSplice_nil]
    simp
  | cons p ps ih =>
    intro vals buf off hmap hv hlen
    cases vals with
    | nil => simp at hmap
    | cons v vs =>
      simp only [List.map_cons, List.cons.injEq] at hmap
      obtain ⟨hp, hps⟩ := hmap
      have hv0 : 0 ≤ v := (hv v (by simp)).1
      have hv255 : v ≤ 255 := (hv v (by simp)).2
      have hlen2 : off + vs.length + 1 ≤ buf.length := by
        simp only [List.length_cons] at hlen
        omega
      have hw : writeUInt8 buf v off = some (listSplice buf off [v.toNat]) := by
        unfold writeUInt8
        rw [if_pos ⟨hv0, hv255, by omega⟩]
      have hrec := ih vs (listSplice buf off [v.toNat]) (off + 1) hps
        (fun y hy => hv y (by simp [hy]))
        (by rw [listSplice_length]; omega)
      simp only [writeIPParts, hp, hw, hrec]
      rw [splice_cons _ _ _ _ (by simp; omega)]
      simp only [List.length_cons, List.map_cons, List.length_map]
      rw [show off + 1 + vs.length = off + (vs.length + 1) from by omega]

theorem slice_after (P t : List Nat) (k : Nat) :
    ((P ++ t).take (P.length + k)).drop P.length = t.take k := by
  rw [List.take_append, List.drop_left]

theorem write8_step (P : List Nat) (m : Nat) (v : Int) (off : Nat)
    (hoff : off = P.length) (hv0 : 0 ≤ v) (hv : v ≤ 255) (hm : 1 ≤ m) :
    writeUInt8 (P ++ List.replicate m 0) v off
      = some ((P ++ [v.toNat]) ++ List.replicate (m - 1) 0) := by
  unfold writeUInt8
  rw [if_pos ⟨hv0, hv, by simp; omega⟩, hoff,
    splice_into_zeros _ _ _ (by simp; omega)]
  simp

theorem write16_step (P : List Nat) (m v off : Nat)
    (hoff : off = P.length) (hv : v ≤ 65535) (hm : 2 ≤ m) :
    writeUInt16BE (P ++ List.replicate m 0) v off
      = some ((P ++ [v / 256, v % 256]) ++ List.replicate (m - 2) 0) := by
  unfold writeUInt16BE
  rw [if_pos ⟨hv, by simp; omega⟩, hoff,
    splice_into_zeros _ _ _ (by simp; omega)]
  simp

theorem write32_step (P : List Nat) (m v off : Nat)
    (hoff : off = P.length) (hv : v ≤ 4294967295) (hm : 4 ≤ m) :
    writeUInt32BE (P ++ List.replicate m 0) v off
      = some ((P ++ be32 v) ++ List.replicate (m - 4) 0) := by
  unfold writeUInt32BE
  rw [if_pos ⟨hv, by simp; omega⟩, hoff,
    splice_into_zeros _ _ _ (by simp [be32]; omega)]
  simp [be32]

theorem copy_question_step (msg Q P t : List Nat) (m : Nat) (off k : Nat)
    (hmsg : msg = Q ++ t) (hoffq : off = Q.length) (hoffp : off = P.length)
    (hk : k ≤ m) (hkt : k ≤ t.length) :
    bufCopy msg (P ++ List.replicate m 0) off off (off + k)
      = (P ++ t.take k) ++ List.replicate (m - k) 0 := by
  unfold bufCopy
  have hqp : Q.length = P.length := by omega
  rw [hmsg, hoffq, slice_after, hqp, splice_into_zeros _ _ _ (by simp; omega)]
  rw [show (t.take k).length = k from by simp; omega]

theorem bufCopy_alloc (msg P : List Nat) (hP : msg.take 12 = P) (h12 : P.length = 12) :
    bufCopy msg (List.replicate 512 0) 0 0 12 = P ++ List.replicate 500 0 := by
  unfold bufCopy
  rw [List.drop_zero, hP]
  have h := splice_into_zeros ([] : List Nat) 512 P (by omega)
  simp only [List.nil_append, List.length_nil] at h
  rw [h, h12]

theorem encodeLabels_bytes (labels : List (List Nat)) (hwf : wfLabels labels) :
    ∀ x ∈ encodeLabels labels, 1 ≤ x ∧ x ≤ 255 := by
  induction labels with
  | nil => simp [encodeLabels]
  | cons l ls ih =>
    intro x hx
    rw [encodeLabels_cons] at hx
    simp only [List.mem_cons, List.mem_append] at hx
    rcases hx with h | h | h
    · have h1 := (hwf l (by simp)).1
      omega
    · have h2 := (hwf l (by simp)).2 x h
      omega
    · exact ih (fun y hy => hwf y (by simp [hy])) x h

theorem be32_length (v : Nat) : (be32 v).length = 4 := rfl

theorem createDNSResponse_A_spec (query : DNSQuery) (record : DNSRecord)
    (originalMsg : List Nat)
    (h0 h1 h2 h3 h4 h5 h6 h7 h8 h9 h10 h11 : Nat)
    (labels : List (List Nat)) (tl : List Nat) (a b c d : Int)
    (hmsg : originalMsg = [h0, h1, h2, h3, h4, h5, h6, h7, h8, h9, h10, h11]
      ++ (encodeLabels labels ++ (0 :: tl)))
    (hwf : wfLabels labels)
    (hnl : (encodeLabels labels).length ≤ 254)
    (htl : 4 ≤ tl.length)
    (htype : record.type = "A")
    (httl : record.ttl ≤ 4294967295)
    (hval : (jsSplit record.value).map jsParseInt = [some a, some b, some c, some d])
    (hva : 0 ≤ a ∧ a ≤ 255) (hvb : 0 ≤ b ∧ b ≤ 255)
    (hvc : 0 ≤ c ∧ c ≤ 255) (hvd : 0 ≤ d ∧ d ≤ 255) :
    createDNSResponse query record originalMsg
      = some ((([h0, h1, 129, 128, h4, h5, 0, 1, h8, h9, h10, h11]
          ++ encodeLabels labels) ++ [0]) ++ tl.take 4
          ++ [192, 12, 0, 1, 0, 1] ++ be32 record.ttl
          ++ [0, 4, a.toNat, b.toNat, c.toNat, d.toNat]) := by
  have e1 : bufCopy originalMsg (List.replicate 512 0) 0 0 12
      = [h0, h1, h2, h3, h4, h5, h6, h7, h8, h9, h10, h11]
        ++ List.replicate 500 0 := by
    apply bufCopy_alloc
    · rw [hmsg]
      rfl
    · rfl
  have e2 : writeUInt16BE ([h0, h1, h2, h3, h4, h5, h6, h7, h8, h9, h10, h11]
        ++ List.replicate 500 0) 0x8180 2
      = some ([h0, h1, 129, 128, h4, h5, h6, h7, h8, h9, h10, h11]
        ++ List.replicate 500 0) := by
    unfold writeUInt16BE
    rw [if_pos ⟨by norm_num, by simp⟩]
    rw [listSplice_of_le _ _ _ (by simp)]
    norm_num
  have e3 : writeUInt16BE ([h0, h1, 129, 128, h4, h5, h6, h7, h8, h9, h10, h11]
        ++ List.replicate 500 0) 1 6
      = some ([h0, h1, 129, 128, h4, h5, 0, 1, h8, h9, h10, h11]
        ++ List.replicate 500 0) := by
    unfold writeUInt16BE
    rw [if_pos ⟨by norm_num, by simp⟩]
    rw [listSplice_of_le _ _ _ (by simp)]
    norm_num
  have e4 : copyName originalMsg 513
        ([h0, h1, 129, 128, h4, h5, 0, 1, h8, h9, h10, h11]
          ++ List.replicate 500 0) 12
      = some ((([h0, h1, 129, 128, h4, h5, 0, 1, h8, h9, h10, h11]
          ++ encodeLabels labels)) ++ List.replicate (500 - (encodeLabels labels).length) 0,
          12 + (encodeLabels labels).length) := by
    rw [hmsg]
    have hc := copyName_spec (encodeLabels labels)
      [h0, h1, h2, h3, h4, h5, h6, h7, h8, h9, h10, h11] tl
      ([h0, h1, 129, 128, h4, h5, 0, 1, h8, h9, h10, h11] ++ List.replicate 500 0)
      513 (encodeLabels_bytes labels hwf) (by omega)
      (by simp; omega)
    simp only [List.length_cons, List.length_nil] at hc
    rw [hc]
    rw [show (12 : Nat) + 0 = ([h0, h1, 129, 128, h4, h5, 0, 1, h8, h9, h10, h11] : List Nat).length from by simp]
    rw [splice_into_zeros _ _ _ (by omega)]
    simp

  have e5 : writeUInt8 (([h0, h1, 129, 128, h4, h5, 0, 1, h8, h9, h10, h11] ++ encodeLabels labels) ++ List.replicate (500 - (encodeLabels labels).length) 0) 0 (12 + (encodeLabels labels).length)
      = some ((([h0, h1, 129, 128, h4, h5, 0, 1, h8, h9, h10, h11] ++ encodeLabels labels) ++ [0]) ++ List.replicate (499 - (encodeLabels labels).length) 0) := by
    have h := write8_step (([h0, h1, 129, 128, h4, h5, 0, 1, h8, h9, h10, h11] ++ encodeLabels labels)) (500 - (encodeLabels labels).length) 0 (12 + (encodeLabels labels).length)
      (by simp only [List.length_append, List.length_cons, List.length_nil, List.length_replicate, List.length_take, be32_length] <;> omega) (by norm_num) (by norm_num) (by omega)
    rw [h, show ((0 : Int)).toNat = 0 from rfl,
      show 500 - (encodeLabels labels).length - 1 = 499 - (encodeLabels labels).length from by omega]
  have e6 : bufCopy originalMsg ((([h0, h1, 129, 128, h4, h5, 0, 1, h8, h9, h10, h11] ++ encodeLabels labels) ++ [0]) ++ List.replicate (499 - (encodeLabels labels).length) 0)
        (12 + (encodeLabels labels).length + 1) (12 + (encodeLabels labels).length + 1) (12 + (encodeLabels labels).length + 1 + 4)
      = ((([h0, h1, 129, 128, h4, h5, 0, 1, h8, h9, h10, h11] ++ encodeLabels labels) ++ [0]) ++ tl.take 4) ++ List.replicate (495 - (encodeLabels labels).length) 0 := by
    have hmsg2 : originalMsg = (([h0, h1, h2, h3, h4, h5, h6, h7, h8, h9, h10, h11] ++ encodeLabels labels) ++ [0]) ++ tl := by
      rw [hmsg]
      simp
    have h := copy_question_step originalMsg (([h0, h1, h2, h3, h4, h5, h6, h7, h8, h9, h10, h11] ++ encodeLabels labels) ++ [0]) ((([h0, h1, 129, 128, h4, h5, 0, 1, h8, h9, h10, h11] ++ encodeLabels labels) ++ [0])) tl
      (499 - (encodeLabels labels).length) (12 + (encodeLabels labels).length + 1) 4 hmsg2
      (by simp only [List.length_append, List.length_cons, List.length_nil, List.length_replicate, List.length_take, be32_length] <;> omega) (by simp only [List.length_append, List.length_cons, List.length_nil, List.length_replicate, List.length_take, be32_length] <;> omega)
      (by omega) htl
    rw [h, show 499 - (encodeLabels labels).length - 4 = 495 - (encodeLabels labels).length from by omega]
  have e7 : writeUInt16BE (((([h0, h1, 129, 128, h4, h5, 0, 1, h8, h9, h10, h11] ++ encodeLabels labels) ++ [0]) ++ tl.take 4) ++ List.replicate (495 - (encodeLabels labels).length) 0) 0xC00C (12 + (encodeLabels labels).length + 1 + 4)
      = some ((((([h0, h1, 129, 128, h4, h5, 0, 1, h8, h9, h10, h11] ++ encodeLabels labels) ++ [0]) ++ tl.take 4) ++ [192, 12]) ++ List.replicate (493 - (encodeLabels labels).length) 0) := by
    have h := write16_step (((([h0, h1, 129, 128, h4, h5, 0, 1, h8, h9, h10, h11] ++ encodeLabels labels) ++ [0]) ++ tl.take 4)) (495 - (encodeLabels labels).length) 0xC00C (12 + (encodeLabels labels).length + 1 + 4)
      (by simp only [List.length_append, List.length_cons, List.length_nil, List.length_replicate, List.length_take, be32_length] <;> omega) (by norm_num) (by omega)
    rw [h, show (0xC00C : Nat) / 256 = 192 from by norm_num,
      show (0xC00C : Nat) % 256 = 12 from by norm_num,
      show (495 - (encodeLabels labels).length) - 2 = 493 - (encodeLabels labels).length from by omega]

  have e8 : writeUInt16BE ((((([h0, h1, 129, 128, h4, h5, 0, 1, h8, h9, h10, h11] ++ encodeLabels labels) ++ [0]) ++ tl.take 4) ++ [192, 12]) ++ List.replicate (493 - (encodeLabels labels).length) 0) 1 (12 + (encodeLabels labels).length + 1 + 4 + 2)
      = some (((((([h0, h1, 129, 128, h4, h5, 0, 1, h8, h9, h10, h11] ++ encodeLabels labels) ++ [0]) ++ tl.take 4) ++ [192, 12]) ++ [0, 1]) ++ List.replicate (491 - (encodeLabels labels).length) 0) := by
    have h := write16_step ((((([h0, h1, 129, 128, h4, h5, 0, 1, h8, h9, h10, h11] ++ encodeLabels labels) ++ [0]) ++ tl.take 4) ++ [192, 12])) (493 - (encodeLabels labels).length) 1 (12 + (encodeLabels labels).length + 1 + 4 + 2)
      (by simp only [List.length_append, List.length_cons, List.length_nil, List.length_replicate, List.length_take, be32_length] <;> omega) (by norm_num) (by omega)
    rw [h, show (1 : Nat) / 256 = 0 from by norm_num,
      show (1 : Nat) % 256 = 1 from by norm_num,
      show (493 - (encodeLabels labels).length) - 2 = 491 - (encodeLabels labels).length from by omega]

  have e9 : writeUInt16BE (((((([h0, h1, 129, 128, h4, h5, 0, 1, h8, h9, h10, h11] ++ encodeLabels labels) ++ [0]) ++ tl.take 4) ++ [192, 12]) ++ [0, 1]) ++ List.replicate (491 - (encodeLabels labels).length) 0) 1 (12 + (encodeLabels labels).length + 1 + 4 + 2 + 2)
      = some ((((((([h0, h1, 129, 128, h4, h5, 0, 1, h8, h9, h10, h11] ++ encodeLabels labels) ++ [0]) ++ tl.take 4) ++ [192, 12]) ++ [0, 1]) ++ [0, 1]) ++ List.replicate (489 - (encodeLabels labels).length) 0) := by
    have h := write16_step (((((([h0, h1, 129, 128, h4, h5, 0, 1, h8, h9, h10, h11] ++ encodeLabels labels) ++ [0]) ++ tl.take 4) ++ [192, 12]) ++ [0, 1])) (491 - (encodeLabels labels).length) 1 (12 + (encodeLabels labels).length + 1 + 4 + 2 + 2)
      (by simp only [List.length_append, List.length_cons, List.length_nil, List.length_replicate, List.length_take, be32_length] <;> omega) (by norm_num) (by omega)
    rw [h, show (1 : Nat) / 256 = 0 from by norm_num,
      show (1 : Nat) % 256 = 1 from by norm_num,
      show (491 - (encodeLabels labels).length) - 2 = 489 - (encodeLabels labels).length from by omega]

  have e10 : writeUInt32BE ((((((([h0, h1, 129, 128, h4, h5, 0, 1, h8, h9, h10, h11] ++ encodeLabels labels) ++ [0]) ++ tl.take 4) ++ [192, 12]) ++ [0, 1]) ++ [0, 1]) ++ List.replicate (489 - (encodeLabels labels).length) 0) record.ttl (12 + (encodeLabels labels).length + 1 + 4 + 2 + 2 + 2)
      = some (((((((([h0, h1, 129, 128, h4, h5, 0, 1, h8, h9, h10, h11] ++ encodeLabels labels) ++ [0]) ++ tl.take 4) ++ [192, 12]) ++ [0, 1]) ++ [0, 1]) ++ be32 record.ttl) ++ List.replicate (485 - (encodeLabels labels).length) 0) := by
    have h := write32_step ((((((([h0, h1, 129, 128, h4, h5, 0, 1, h8, h9, h10, h11] ++ encodeLabels labels) ++ [0]) ++ tl.take 4) ++ [192, 12]) ++ [0, 1]) ++ [0, 1])) (489 - (encodeLabels labels).length) record.ttl (12 + (encodeLabels labels).length + 1 + 4 + 2 + 2 + 2)
      (by simp only [List.length_append, List.length_cons, List.length_nil, List.length_replicate, List.length_take, be32_length] <;> omega) httl (by omega)
    rw [h, show 489 - (encodeLabels labels).length - 4 = 485 - (encodeLabels labels).length from by omega]
  have e11 : writeUInt16BE (((((((([h0, h1, 129, 128, h4, h5, 0, 1, h8, h9, h10, h11] ++ encodeLabels labels) ++ [0]) ++ tl.take 4) ++ [192, 12]) ++ [0, 1]) ++ [0, 1]) ++ be32 record.ttl) ++ List.replicate (485 - (encodeLabels labels).length) 0) 4 (12 + (encodeLabels labels).length + 1 + 4 + 2 + 2 + 2 + 4)
      = some ((((((((([h0, h1, 129, 128, h4, h5, 0, 1, h8, h9, h10, h11] ++ encodeLabels labels) ++ [0]) ++ tl.take 4) ++ [192, 12]) ++ [0, 1]) ++ [0, 1]) ++ be32 record.ttl) ++ [0, 4]) ++ List.replicate (483 - (encodeLabels labels).length) 0) := by
    have h := write16_step (((((((([h0, h1, 129, 128, h4, h5, 0, 1, h8, h9, h10, h11] ++ encodeLabels labels) ++ [0]) ++ tl.take 4) ++ [192, 12]) ++ [0, 1]) ++ [0, 1]) ++ be32 record.ttl)) (485 - (encodeLabels labels).length) 4 (12 + (encodeLabels labels).length + 1 + 4 + 2 + 2 + 2 + 4)
      (by simp only [List.length_append, List.length_cons, List.length_nil, List.length_replicate, List.length_take, be32_length] <;> omega) (by norm_num) (by omega)
    rw [h, show (4 : Nat) / 256 = 0 from by norm_num,
      show (4 : Nat) % 256 = 4 from by norm_num,
      show (485 - (encodeLabels labels).length) - 2 = 483 - (encodeLabels labels).length from by omega]

  have e12 : writeIPParts (jsSplit record.value)
        ((((((((([h0, h1, 129, 128, h4, h5, 0, 1, h8, h9, h10, h11] ++ encodeLabels labels) ++ [0]) ++ tl.take 4) ++ [192, 12]) ++ [0, 1]) ++ [0, 1]) ++ be32 record.ttl) ++ [0, 4]) ++ List.replicate (483 - (encodeLabels labels).length) 0) (12 + (encodeLabels labels).length + 1 + 4 + 2 + 2 + 2 + 4 + 2)
      = some (((((((((([h0, h1, 129, 128, h4, h5, 0, 1, h8, h9, h10, h11] ++ encodeLabels labels) ++ [0]) ++ tl.take 4) ++ [192, 12]) ++ [0, 1]) ++ [0, 1]) ++ be32 record.ttl) ++ [0, 4]) ++ [a.toNat, b.toNat, c.toNat, d.toNat]) ++ List.replicate (479 - (encodeLabels labels).length) 0, 12 + (encodeLabels labels).length + 1 + 4 + 2 + 2 + 2 + 4 + 2 + 4) := by
    have hmap : (jsSplit record.value).map jsParseInt = [a, b, c, d].map some := by
      simpa using hval
    have hbnd : ∀ v ∈ [a, b, c, d], 0 ≤ v ∧ v ≤ 255 := by
      intro v hv
      fin_cases hv
      exacts [hva, hvb, hvc, hvd]
    have h := writeIPParts_spec (jsSplit record.value) [a, b, c, d]
      ((((((((([h0, h1, 129, 128, h4, h5, 0, 1, h8, h9, h10, h11] ++ encodeLabels labels) ++ [0]) ++ tl.take 4) ++ [192, 12]) ++ [0, 1]) ++ [0, 1]) ++ be32 record.ttl) ++ [0, 4]) ++ List.replicate (483 - (encodeLabels labels).length) 0) (12 + (encodeLabels labels).length + 1 + 4 + 2 + 2 + 2 + 4 + 2) hmap hbnd
      (by simp only [List.length_append, List.length_cons, List.length_nil, List.length_replicate, List.length_take, be32_length] <;> omega)
    rw [h]
    simp only [List.map_cons, List.map_nil, Option.some.injEq, Prod.mk.injEq,
      List.length_cons, List.length_nil]
    have hxlen : ([a.toNat, b.toNat, c.toNat, d.toNat] : List Nat).length
        ≤ 483 - (encodeLabels labels).length := by
      have h4 : ([a.toNat, b.toNat, c.toNat, d.toNat] : List Nat).length = 4 := rfl
      omega
    have hsp := splice_into_zeros ((((((((([h0, h1, 129, 128, h4, h5, 0, 1, h8, h9, h10, h11] ++ encodeLabels labels) ++ [0]) ++ tl.take 4) ++ [192, 12]) ++ [0, 1]) ++ [0, 1]) ++ be32 record.ttl) ++ [0, 4])) (483 - (encodeLabels labels).length)
      [a.toNat, b.toNat, c.toNat, d.toNat] hxlen
    refine ⟨?_, by trivial⟩
    rw [show (12 + (encodeLabels labels).length + 1 + 4 + 2 + 2 + 2 + 4 + 2) = ((((((((([h0, h1, 129, 128, h4, h5, 0, 1, h8, h9, h10, h11] ++ encodeLabels labels) ++ [0]) ++ tl.take 4) ++ [192, 12]) ++ [0, 1]) ++ [0, 1]) ++ be32 record.ttl) ++ [0, 4]) : List Nat).length from by
        simp only [List.length_append, List.length_cons, List.length_nil, List.length_replicate, List.length_take, be32_length] <;> omega, hsp,
      show 483 - (encodeLabels labels).length - ([a.toNat, b.toNat, c.toNat, d.toNat] : List Nat).length
        = 479 - (encodeLabels labels).length from by
        have h4 : ([a.toNat, b.toNat, c.toNat, d.toNat] : List Nat).length = 4 := rfl
        omega]
  have etake : (((((((((([h0, h1, 129, 128, h4, h5, 0, 1, h8, h9, h10, h11] ++ encodeLabels labels) ++ [0]) ++ tl.take 4) ++ [192, 12]) ++ [0, 1]) ++ [0, 1]) ++ be32 record.ttl) ++ [0, 4]) ++ [a.toNat, b.toNat, c.toNat, d.toNat]) ++ List.replicate (479 - (encodeLabels labels).length) 0).take (12 + (encodeLabels labels).length + 1 + 4 + 2 + 2 + 2 + 4 + 2 + 4)
      = ((((((((([h0, h1, 129, 128, h4, h5, 0, 1, h8, h9, h10, h11] ++ encodeLabels labels) ++ [0]) ++ tl.take 4) ++ [192, 12]) ++ [0, 1]) ++ [0, 1]) ++ be32 record.ttl) ++ [0, 4]) ++ [a.toNat, b.toNat, c.toNat, d.toNat]) := by
    rw [show (12 + (encodeLabels labels).length + 1 + 4 + 2 + 2 + 2 + 4 + 2 + 4) = (((((((((([h0, h1, 129, 128, h4, h5, 0, 1, h8, h9, h10, h11] ++ encodeLabels labels) ++ [0]) ++ tl.take 4) ++ [192, 12]) ++ [0, 1]) ++ [0, 1]) ++ be32 record.ttl) ++ [0, 4]) ++ [a.toNat, b.toNat, c.toNat, d.toNat]) : List Nat).length from by simp only [List.length_append, List.length_cons, List.length_nil, List.length_replicate, List.length_take, be32_length] <;> omega]
    exact List.take_left _ _
  simp only [createDNSResponse, e1, e2, e3, e4, e5, e6, e7, e8, e9, e10, e11, e12,
    htype, Option.bind_eq_bind, Option.some_bind, Option.pure_def, reduceIte, etake]
  simp [List.append_assoc]

theorem createDNSResponse_nonA_spec (query : DNSQuery) (record : DNSRecord)
    (originalMsg : List Nat)
    (h0 h1 h2 h3 h4 h5 h6 h7 h8 h9 h10 h11 : Nat)
    (labels : List (List Nat)) (tl : List Nat)
    (hmsg : originalMsg = [h0, h1, h2, h3, h4, h5, h6, h7, h8, h9, h10, h11]
      ++ (encodeLabels labels ++ (0 :: tl)))
    (hwf : wfLabels labels)
    (hnl : (encodeLabels labels).length ≤ 254)
    (htl : 4 ≤ tl.length)
    (htype : record.type ≠ "A")
    (httl : record.ttl ≤ 4294967295) :
    createDNSResponse query record originalMsg
      = some (((((((([h0, h1, 129, 128, h4, h5, 0, 1, h8, h9, h10, h11] ++ encodeLabels labels) ++ [0]) ++ tl.take 4) ++ [192, 12]) ++ [0, 1]) ++ [0, 1]) ++ be32 record.ttl)) := by
  have e1 : bufCopy originalMsg (List.replicate 512 0) 0 0 12
      = [h0, h1, h2, h3, h4, h5, h6, h7, h8, h9, h10, h11]
        ++ List.replicate 500 0 := by
    apply bufCopy_alloc
    · rw [hmsg]
      rfl
    · rfl
  have e2 : writeUInt16BE ([h0, h1, h2, h3, h4, h5, h6, h7, h8, h9, h10, h11]
        ++ List.replicate 500 0) 0x8180 2
      = some ([h0, h1, 129, 128, h4, h5, h6, h7, h8, h9, h10, h11]
        ++ List.replicate 500 0) := by
    unfold writeUInt16BE
    rw [if_pos ⟨by norm_num, by simp⟩]
    rw [listSplice_of_le _ _ _ (by simp)]
    norm_num
  have e3 : writeUInt16BE ([h0, h1, 129, 128, h4, h5, h6, h7, h8, h9, h10, h11]
        ++ List.replicate 500 0) 1 6
      = some ([h0, h1, 129, 128, h4, h5, 0, 1, h8, h9, h10, h11]
        ++ List.replicate 500 0) := by
    unfold writeUInt16BE
    rw [if_pos ⟨by norm_num, by simp⟩]
    rw [listSplice_of_le _ _ _ (by simp)]
    norm_num
  have e4 : copyName originalMsg 513
        ([h0, h1, 129, 128, h4, h5, 0, 1, h8, h9, h10, h11]
          ++ List.replicate 500 0) 12
      = some ((([h0, h1, 129, 128, h4, h5, 0, 1, h8, h9, h10, h11] ++ encodeLabels labels)) ++ List.replicate (500 - (encodeLabels labels).length) 0,
          12 + (encodeLabels labels).length) := by
    rw [hmsg]
    have hc := copyName_spec (encodeLabels labels)
      [h0, h1, h2, h3, h4, h5, h6, h7, h8, h9, h10, h11] tl
      ([h0, h1, 129, 128, h4, h5, 0, 1, h8, h9, h10, h11] ++ List.replicate 500 0)
      513 (encodeLabels_bytes labels hwf) (by omega)
      (by simp; omega)
    simp only [List.length_cons, List.length_nil] at hc
    rw [hc]
    rw [show (12 : Nat) + 0 = ([h0, h1, 129, 128, h4, h5, 0, 1, h8, h9, h10, h11] : List Nat).length from by simp]
    rw [splice_into_zeros _ _ _ (by omega)]
    simp
  have e5 : writeUInt8 (([h0, h1, 129, 128, h4, h5, 0, 1, h8, h9, h10, h11] ++ encodeLabels labels) ++ List.replicate (500 - (encodeLabels labels).length) 0) 0 (12 + (encodeLabels labels).length)
      = some ((([h0, h1, 129, 128, h4, h5, 0, 1, h8, h9, h10, h11] ++ encodeLabels labels) ++ [0]) ++ List.replicate (499 - (encodeLabels labels).length) 0) := by
    have h := write8_step (([h0, h1, 129, 128, h4, h5, 0, 1, h8, h9, h10, h11] ++ encodeLabels labels)) (500 - (encodeLabels labels).length) 0 (12 + (encodeLabels labels).length)
      (by simp only [List.length_append, List.length_cons, List.length_nil, List.length_replicate, List.length_take, be32_length] <;> omega) (by norm_num) (by norm_num) (by omega)
    rw [h, show ((0 : Int)).toNat = 0 from rfl,
      show 500 - (encodeLabels labels).length - 1 = 499 - (encodeLabels labels).length from by omega]
  have e6 : bufCopy originalMsg ((([h0, h1, 129, 128, h4, h5, 0, 1, h8, h9, h10, h11] ++ encodeLabels labels) ++ [0]) ++ List.replicate (499 - (encodeLabels labels).length) 0)
        (12 + (encodeLabels labels).length + 1) (12 + (encodeLabels labels).length + 1) (12 + (encodeLabels labels).length + 1 + 4)
      = ((([h0, h1, 129, 128, h4, h5, 0, 1, h8, h9, h10, h11] ++ encodeLabels labels) ++ [0]) ++ tl.take 4) ++ List.replicate (495 - (encodeLabels labels).length) 0 := by
    have hmsg2 : originalMsg = (([h0, h1, h2, h3, h4, h5, h6, h7, h8, h9, h10, h11] ++ encodeLabels labels) ++ [0]) ++ tl := by
      rw [hmsg]
      simp
    have h := copy_question_step originalMsg (([h0, h1, h2, h3, h4, h5, h6, h7, h8, h9, h10, h11] ++ encodeLabels labels) ++ [0]) ((([h0, h1, 129, 128, h4, h5, 0, 1, h8, h9, h10, h11] ++ encodeLabels labels) ++ [0])) tl
      (499 - (encodeLabels labels).length) (12 + (encodeLabels labels).length + 1) 4 hmsg2
      (by simp only [List.length_append, List.length_cons, List.length_nil, List.length_replicate, List.length_take, be32_length] <;> omega) (by simp only [List.length_append, List.length_cons, List.length_nil, List.length_replicate, List.length_take, be32_length] <;> omega)
      (by omega) htl
    rw [h, show 499 - (encodeLabels labels).length - 4 = 495 - (encodeLabels labels).length from by omega]
  have e7 : writeUInt16BE (((([h0, h1, 129, 128, h4, h5, 0, 1, h8, h9, h10, h11] ++ encodeLabels labels) ++ [0]) ++ tl.take 4) ++ List.replicate (495 - (encodeLabels labels).length) 0) 0xC00C (12 + (encodeLabels labels).length + 1 + 4)
      = some ((((([h0, h1, 129, 128, h4, h5, 0, 1, h8, h9, h10, h11] ++ encodeLabels labels) ++ [0]) ++ tl.take 4) ++ [192, 12]) ++ List.replicate (493 - (encodeLabels labels).length) 0) := by
    have h := write16_step (((([h0, h1, 129, 128, h4, h5, 0, 1, h8, h9, h10, h11] ++ encodeLabels labels) ++ [0]) ++ tl.take 4)) (495 - (encodeLabels labels).length) 0xC00C (12 + (encodeLabels labels).length + 1 + 4)
      (by simp only [List.length_append, List.length_cons, List.length_nil, List.length_replicate, List.length_take, be32_length] <;> omega) (by norm_num) (by omega)
    rw [h, show (0xC00C : Nat) / 256 = 192 from by norm_num,
      show (0xC00C : Nat) % 256 = 12 from by norm_num,
      show (495 - (encodeLabels labels).length) - 2 = 493 - (encodeLabels labels).length from by omega]

  have e8 : writeUInt16BE ((((([h0, h1, 129, 128, h4, h5, 0, 1, h8, h9, h10, h11] ++ encodeLabels labels) ++ [0]) ++ tl.take 4) ++ [192, 12]) ++ List.replicate (493 - (encodeLabels labels).length) 0) 1 (12 + (encodeLabels labels).length + 1 + 4 + 2)
      = some (((((([h0, h1, 129, 128, h4, h5, 0, 1, h8, h9, h10, h11] ++ encodeLabels labels) ++ [0]) ++ tl.take 4) ++ [192, 12]) ++ [0, 1]) ++ List.replicate (491 - (encodeLabels labels).length) 0) := by
    have h := write16_step ((((([h0, h1, 129, 128, h4, h5, 0, 1, h8, h9, h10, h11] ++ encodeLabels labels) ++ [0]) ++ tl.take 4) ++ [192, 12])) (493 - (encodeLabels labels).length) 1 (12 + (encodeLabels labels).length + 1 + 4 + 2)
      (by simp only [List.length_append, List.length_cons, List.length_nil, List.length_replicate, List.length_take, be32_length] <;> omega) (by norm_num) (by omega)
    rw [h, show (1 : Nat) / 256 = 0 from by norm_num,
      show (1 : Nat) % 256 = 1 from by norm_num,
      show (493 - (encodeLabels labels).length) - 2 = 491 - (encodeLabels labels).length from by omega]

  have e9 : writeUInt16BE (((((([h0, h1, 129, 128, h4, h5, 0, 1, h8, h9, h10, h11] ++ encodeLabels labels) ++ [0]) ++ tl.take 4) ++ [192, 12]) ++ [0, 1]) ++ List.replicate (491 - (encodeLabels labels).length) 0) 1 (12 + (encodeLabels labels).length + 1 + 4 + 2 + 2)
      = some ((((((([h0, h1, 129, 128, h4, h5, 0, 1, h8, h9, h10, h11] ++ encodeLabels labels) ++ [0]) ++ tl.take 4) ++ [192, 12]) ++ [0, 1]) ++ [0, 1]) ++ List.replicate (489 - (encodeLabels labels).length) 0) := by
    have h := write16_step (((((([h0, h1, 129, 128, h4, h5, 0, 1, h8, h9, h10, h11] ++ encodeLabels labels) ++ [0]) ++ tl.take 4) ++ [192, 12]) ++ [0, 1])) (491 - (encodeLabels labels).length) 1 (12 + (encodeLabels labels).length + 1 + 4 + 2 + 2)
      (by simp only [List.length_append, List.length_cons, List.length_nil, List.length_replicate, List.length_take, be32_length] <;> omega) (by norm_num) (by omega)
    rw [h, show (1 : Nat) / 256 = 0 from by norm_num,
      show (1 : Nat) % 256 = 1 from by norm_num,
      show (491 - (encodeLabels labels).length) - 2 = 489 - (encodeLabels labels).length from by omega]

  have e10 : writeUInt32BE ((((((([h0, h1, 129, 128, h4, h5, 0, 1, h8, h9, h10, h11] ++ encodeLabels labels) ++ [0]) ++ tl.take 4) ++ [192, 12]) ++ [0, 1]) ++ [0, 1]) ++ List.replicate (489 - (encodeLabels labels).length) 0) record.ttl (12 + (encodeLabels labels).length + 1 + 4 + 2 + 2 + 2)
      = some (((((((([h0, h1, 129, 128, h4, h5, 0, 1, h8, h9, h10, h11] ++ encodeLabels labels) ++ [0]) ++ tl.take 4) ++ [192, 12]) ++ [0, 1]) ++ [0, 1]) ++ be32 record.ttl) ++ List.replicate (485 - (encodeLabels labels).length) 0) := by
    have h := write32_step ((((((([h0, h1, 129, 128, h4, h5, 0, 1, h8, h9, h10, h11] ++ encodeLabels labels) ++ [0]) ++ tl.take 4) ++ [192, 12]) ++ [0, 1]) ++ [0, 1])) (489 - (encodeLabels labels).length) record.ttl (12 + (encodeLabels labels).length + 1 + 4 + 2 + 2 + 2)
      (by simp only [List.length_append, List.length_cons, List.length_nil, List.length_replicate, List.length_take, be32_length] <;> omega) httl (by omega)
    rw [h, show 489 - (encodeLabels labels).length - 4 = 485 - (encodeLabels labels).length from by omega]
  have etake : (((((((([h0, h1, 129, 128, h4, h5, 0, 1, h8, h9, h10, h11] ++ encodeLabels labels) ++ [0]) ++ tl.take 4) ++ [192, 12]) ++ [0, 1]) ++ [0, 1]) ++ be32 record.ttl) ++ List.replicate (485 - (encodeLabels labels).length) 0).take (12 + (encodeLabels labels).length + 1 + 4 + 2 + 2 + 2 + 4)
      = ((((((([h0, h1, 129, 128, h4, h5, 0, 1, h8, h9, h10, h11] ++ encodeLabels labels) ++ [0]) ++ tl.take 4) ++ [192, 12]) ++ [0, 1]) ++ [0, 1]) ++ be32 record.ttl) := by
    rw [show (12 + (encodeLabels labels).length + 1 + 4 + 2 + 2 + 2 + 4) = (((((((([h0, h1, 129, 128, h4, h5, 0, 1, h8, h9, h10, h11] ++ encodeLabels labels) ++ [0]) ++ tl.take 4) ++ [192, 12]) ++ [0, 1]) ++ [0, 1]) ++ be32 record.ttl) : List Nat).length from by
      simp only [List.length_append, List.length_cons, List.length_nil, List.length_replicate, List.length_take, be32_length] <;> omega]
    exact List.take_left _ _
  simp only [createDNSResponse, e1, e2, e3, e4, e5, e6, e7, e8, e9, e10,
    Option.bind_eq_bind, Option.some_bind, Option.pure_def, htype, reduceIte,
    ite_self, etake]

theorem writeUInt8_length (buf : List Nat) (v : Int) (off : Nat) (b2 : List Nat)
    (h : writeUInt8 buf v off = some b2) : b2.length = buf.length := by
  unfold writeUInt8 at h
  split at h
  · simp only [Option.some.injEq] at h
    rw [← h, listSplice_length]
  · exact absurd h (by simp)

theorem writeUInt16BE_length (buf : List Nat) (v off : Nat) (b2 : List Nat)
    (h : writeUInt16BE buf v off = some b2) : b2.length = buf.length := by
  unfold writeUInt16BE at h
  split at h
  · simp only [Option.some.injEq] at h
    rw [← h, listSplice_length]
  · exact absurd h (by simp)

theorem writeUInt32BE_length (buf : List Nat) (v off : Nat) (b2 : List Nat)
    (h : writeUInt32BE buf v off = some b2) : b2.length = buf.length := by
  unfold writeUInt32BE at h
  split at h
  · simp only [Option.some.injEq] at h
    rw [← h, listSplice_length]
  · exact absurd h (by simp)

theorem bufCopy_length (src dst : List Nat) (a b c : Nat) :
    (bufCopy src dst a b c).length = dst.length := by
  unfold bufCopy
  rw [listSplice_length]

theorem copyName_length (msg : List Nat) : ∀ (fuel : Nat) (buf : List Nat)
    (off : Nat) (p : List Nat × Nat),
    copyName msg fuel buf off = some p → p.1.length = buf.length := by
  intro fuel
  induction fuel with
  | zero =>
    intro buf off p h
    have h0 : copyName msg 0 buf off = none := rfl
    rw [h0] at h
    exact absurd h (by simp)
  | succ fuel ih =>
    intro buf off p h
    rw [copyName_succ] at h
    split at h
    · exact absurd h (by simp)
    · simp only [Option.some.injEq] at h
      rw [← h]
    · split at h
      · exact absurd h (by simp)
      · rename_i buf1 hw
        have h1 := ih buf1 (off + 1) p h
        rw [h1]
        exact writeUInt8_length _ _ _ _ hw

theorem writeIPParts_length : ∀ (parts : List String) (buf : List Nat)
    (off : Nat) (p : List Nat × Nat),
    writeIPParts parts buf off = some p → p.1.length = buf.length := by
  intro parts
  induction parts with
  | nil =>
    intro buf off p h
    simp only [writeIPParts, Option.some.injEq] at h
    rw [← h]
  | cons q qs ih =>
    intro buf off p h
    unfold writeIPParts at h
    split at h
    · exact absurd h (by simp)
    · split at h
      · exact absurd h (by simp)
      · rename_i buf1 hw
        have h1 := ih buf1 (off + 1) p h
        rw [h1]
        exact writeUInt8_length _ _ _ _ hw

theorem createDNSResponse_length (query : DNSQuery) (record : DNSRecord)
    (originalMsg r : List Nat)
    (h : createDNSResponse query record originalMsg = some r) : r.length ≤ 512 := by
  simp only [createDNSResponse, Option.bind_eq_bind, Option.bind_eq_some] at h
  obtain ⟨b2, hb2, h⟩ := h
  obtain ⟨b3, hb3, h⟩ := h
  obtain ⟨p4, hp4, h⟩ := h
  obtain ⟨b5, hb5, h⟩ := h
  obtain ⟨b6, hb6, h⟩ := h
  obtain ⟨b7, hb7, h⟩ := h
  obtain ⟨b8, hb8, h⟩ := h
  obtain ⟨b9, hb9, h⟩ := h
  have l2 := writeUInt16BE_length _ _ _ _ hb2
  have l3 := writeUInt16BE_length _ _ _ _ hb3
  have l4 := copyName_length _ _ _ _ _ hp4
  have l5 := writeUInt8_length _ _ _ _ hb5
  have l6 := writeUInt16BE_length _ _ _ _ hb6
  have l7 := writeUInt16BE_length _ _ _ _ hb7
  have l8 := writeUInt16BE_length _ _ _ _ hb8
  have l9 := writeUInt32BE_length _ _ _ _ hb9
  rw [bufCopy_length] at l2
  rw [bufCopy_length] at l6
  simp only [List.length_replicate] at l2
  split at h
  · simp only [Option.bind_eq_some, Option.pure_def, Option.some.injEq] at h
    obtain ⟨b10, hb10, h⟩ := h
    obtain ⟨p11, hp11, h⟩ := h
    have l10 := writeUInt16BE_length _ _ _ _ hb10
    have l11 := writeIPParts_length _ _ _ _ hp11
    rw [← h]
    simp only [List.length_take]
    omega
  · simp only [Option.pure_def, Option.some.injEq] at h
    rw [← h]
    simp only [List.length_take]
    omega

theorem createDNSErrorResponse_length (msg e : List Nat)
    (h : createDNSErrorResponse msg = some e) : e.length = msg.length := by
  simp only [createDNSErrorResponse, Option.bind_eq_bind, Option.bind_eq_some,
    Option.pure_def, Option.some.injEq] at h
  obtain ⟨b2, hb2, h⟩ := h
  have l2 := writeUInt16BE_length _ _ _ _ hb2
  rw [← h, l2, bufCopy_length]
  simp

theorem getD_take4 (t Y : List Nat) (i : Nat) (hi : i < 4) (h : 4 ≤ t.length) :
    (t.take 4 ++ Y).getD i 0 = t.getD i 0 := by
  rw [List.getD_append _ _ _ _ (by simp; omega)]
  rw [List.getD_eq_getElem?_getD, List.getD_eq_getElem?_getD]
  rw [List.getElem?_take_of_lt hi]

theorem u16_take4 (t Y : List Nat) (h : 4 ≤ t.length) :
    u16 (t.take 4 ++ Y) 0 = u16 t 0 := by
  unfold u16
  rw [getD_take4 _ _ _ (by omega) h, getD_take4 _ _ _ (by omega) h]

theorem createDNSErrorResponse_shape (msg : List Nat) (h : 4 ≤ msg.length) :
    createDNSErrorResponse msg = some (msg.take 2 ++ [129, 131] ++ msg.drop 4) := by
  have h1 : listSplice (List.replicate msg.length 0) 0 ((msg.take msg.length).drop 0) = msg := by
    rw [List.take_of_length_le (le_refl _), List.drop_zero]
    have := splice_into_zeros ([] : List Nat) msg.length msg (le_refl _)
    simpa using this
  simp only [createDNSErrorResponse, bufCopy, h1]
  unfold writeUInt16BE
  rw [if_pos ⟨by omega, by omega⟩]
  rw [listSplice_of_le _ _ _ (by simp; omega)]
  rfl

/-- Claim C1: for a well-formed single-question query whose domain
case-insensitively matches a stored A record with a dotted-quad value,
the dispatcher serves a response carrying the query's transaction id in
bytes 0-1 (`q0 :: q1`), flags `0x8180` (standard successful response) in
bytes 2-3, answer count 1 in bytes 6-7, the echoed question, and an
answer section that is exactly the compression pointer `0xC00C`, type 1,
class 1, the record's TTL in 4 big-endian bytes (`be32`), resource data
length 4, and the record's four address octets. -/
theorem C1_local_hit_response (store : RecordStore) (record : DNSRecord)
    (msg : List Nat) (q0 q1 f0 f1 n0 n1 r0 r1 r2 r3 : Nat)
    (labels : List (List Nat)) (tl : List Nat) (a b c d : Int)
    (hmsg : msg = [q0, q1, f0, f1, 0, 1, n0, n1, r0, r1, r2, r3]
      ++ encodeLabels labels ++ 0 :: tl)
    (hwf : wfLabels labels)
    (hnl : (encodeLabels labels).length ≤ 254)
    (htl : 4 ≤ tl.length)
    (hrec : mapGet store (lowerBytes (List.intercalate [46] labels)) = some record)
    (htype : record.type = "A")
    (httl : record.ttl ≤ 4294967295)
    (hval : (jsSplit record.value).map jsParseInt = [some a, some b, some c, some d])
    (hva : 0 ≤ a ∧ a ≤ 255) (hvb : 0 ≤ b ∧ b ≤ 255)
    (hvc : 0 ≤ c ∧ c ≤ 255) (hvd : 0 ≤ d ∧ d ≤ 255) :
    handleDNSQuery store msg
      = .respond ([q0, q1, 129, 128, 0, 1, 0, 1, r0, r1, r2, r3]
          ++ encodeLabels labels ++ [0] ++ tl.take 4
          ++ [192, 12, 0, 1, 0, 1] ++ be32 record.ttl
          ++ [0, 4, a.toNat, b.toNat, c.toNat, d.toNat]) := by
  have hmsg2 : msg = [q0, q1, f0, f1, 0, 1, n0, n1, r0, r1, r2, r3]
      ++ (encodeLabels labels ++ (0 :: tl)) := by
    rw [hmsg]
    simp
  have hp := parseDNSQuery_spec [q0, q1, f0, f1, 0, 1, n0, n1, r0, r1, r2, r3]
    labels tl rfl hwf htl
  rw [← hmsg2] at hp
  have hcr := createDNSResponse_A_spec
    ⟨⟨u16 [q0, q1, f0, f1, 0, 1, n0, n1, r0, r1, r2, r3] 0,
      u16 [q0, q1, f0, f1, 0, 1, n0, n1, r0, r1, r2, r3] 2,
      u16 [q0, q1, f0, f1, 0, 1, n0, n1, r0, r1, r2, r3] 4,
      u16 [q0, q1, f0, f1, 0, 1, n0, n1, r0, r1, r2, r3] 6,
      u16 [q0, q1, f0, f1, 0, 1, n0, n1, r0, r1, r2, r3] 8,
      u16 [q0, q1, f0, f1, 0, 1, n0, n1, r0, r1, r2, r3] 10⟩,
      List.intercalate [46] labels, u16 tl 0, u16 tl 2⟩
    record msg q0 q1 f0 f1 0 1 n0 n1 r0 r1 r2 r3 labels tl a b c d
    hmsg2 hwf hnl htl htype httl hval hva hvb hvc hvd
  simp only [handleDNSQuery, hp, hrec, hcr, List.append_assoc, List.cons_append,
    List.nil_append]

/-- Claim C6 (confirmed): parsing the response built for a matching
stored A record recovers the domain and the query type of the original
query. -/
theorem C6_parse_serialize_roundtrip (record : DNSRecord)
    (msg : List Nat) (q0 q1 f0 f1 n0 n1 r0 r1 r2 r3 : Nat)
    (labels : List (List Nat)) (tl : List Nat) (a b c d : Int)
    (hmsg : msg = [q0, q1, f0, f1, 0, 1, n0, n1, r0, r1, r2, r3]
      ++ encodeLabels labels ++ 0 :: tl)
    (hwf : wfLabels labels)
    (hnl : (encodeLabels labels).length ≤ 254)
    (htl : 4 ≤ tl.length)
    (htype : record.type = "A")
    (httl : record.ttl ≤ 4294967295)
    (hval : (jsSplit record.value).map jsParseInt = [some a, some b, some c, some d])
    (hva : 0 ≤ a ∧ a ≤ 255) (hvb : 0 ≤ b ∧ b ≤ 255)
    (hvc : 0 ≤ c ∧ c ≤ 255) (hvd : 0 ≤ d ∧ d ≤ 255) :
    ∃ q R q2, parseDNSQuery msg = some q
      ∧ createDNSResponse q record msg = some R
      ∧ parseDNSQuery R = some q2
      ∧ q2.domain = q.domain ∧ q2.type = q.type := by
  have hmsg2 : msg = [q0, q1, f0, f1, 0, 1, n0, n1, r0, r1, r2, r3]
      ++ (encodeLabels labels ++ (0 :: tl)) := by
    rw [hmsg]
    simp
  have hp := parseDNSQuery_spec [q0, q1, f0, f1, 0, 1, n0, n1, r0, r1, r2, r3]
    labels tl rfl hwf htl
  rw [← hmsg2] at hp
  have hcr := createDNSResponse_A_spec
    ⟨⟨u16 [q0, q1, f0, f1, 0, 1, n0, n1, r0, r1, r2, r3] 0,
      u16 [q0, q1, f0, f1, 0, 1, n0, n1, r0, r1, r2, r3] 2,
      u16 [q0, q1, f0, f1, 0, 1, n0, n1, r0, r1, r2, r3] 4,
      u16 [q0, q1, f0, f1, 0, 1, n0, n1, r0, r1, r2, r3] 6,
      u16 [q0, q1, f0, f1, 0, 1, n0, n1, r0, r1, r2, r3] 8,
      u16 [q0, q1, f0, f1, 0, 1, n0, n1, r0, r1, r2, r3] 10⟩,
      List.intercalate [46] labels, u16 tl 0, u16 tl 2⟩
    record msg q0 q1 f0 f1 0 1 n0 n1 r0 r1 r2 r3 labels tl a b c d
    hmsg2 hwf hnl htl htype httl hval hva hvb hvc hvd
  have hR2 : (([q0, q1, 129, 128, 0, 1, 0, 1, r0, r1, r2, r3]
        ++ encodeLabels labels) ++ [0]) ++ tl.take 4
          ++ [192, 12, 0, 1, 0, 1] ++ be32 record.ttl
          ++ [0, 4, a.toNat, b.toNat, c.toNat, d.toNat]
      = [q0, q1, 129, 128, 0, 1, 0, 1, r0, r1, r2, r3]
        ++ (encodeLabels labels ++ (0 :: (tl.take 4
          ++ ([192, 12, 0, 1, 0, 1] ++ (be32 record.ttl
          ++ [0, 4, a.toNat, b.toNat, c.toNat, d.toNat]))))) := by
    simp
  have hp2 := parseDNSQuery_spec [q0, q1, 129, 128, 0, 1, 0, 1, r0, r1, r2, r3]
    labels (tl.take 4 ++ ([192, 12, 0, 1, 0, 1] ++ (be32 record.ttl
      ++ [0, 4, a.toNat, b.toNat, c.toNat, d.toNat]))) rfl hwf
    (by simp only [List.length_append, List.length_take, be32_length,
      List.length_cons, List.length_nil] <;> omega)
  rw [← hR2] at hp2
  exact ⟨_, _, _, hp, hcr, hp2, rfl, u16_take4 _ _ htl⟩

theorem mapSet_idem (m : RecordStore) (k : List Nat) (v : DNSRecord) :
    mapSet (mapSet m k v) k v = mapSet m k v := by
  unfold mapSet
  by_cases h : m.any (fun p => p.1 = k)
  · rw [if_pos h]
    have hany : (m.map (fun p => if p.1 = k then (p.1, v) else p)).any
        (fun p => p.1 = k) = true := by
      rw [List.any_eq_true] at h ⊢
      obtain ⟨p, hp, hpk⟩ := h
      refine ⟨(p.1, v), List.mem_map.2 ⟨p, hp, ?_⟩, ?_⟩
      · simp only [decide_eq_true_eq] at hpk
        simp [hpk]
      · simp only [decide_eq_true_eq] at hpk
        simpa using hpk
    rw [if_pos hany, List.map_map]
    refine List.map_congr_left ?_
    intro p hp
    by_cases hpk : p.1 = k
    · simp [hpk]
    · simp [hpk]
  · rw [if_neg h]
    have hany : ((m ++ [(k, v)]).any (fun p => p.1 = k)) = true := by
      simp
    rw [Bool.not_eq_true] at h
    rw [if_pos hany, List.map_append]
    have h1 : m.map (fun p => if p.1 = k then (p.1, v) else p) = m := by
      have := List.map_congr_left (l := m)
        (f := fun p : List Nat × DNSRecord => if p.1 = k then (p.1, v) else p)
        (g := id) ?_
      · simpa using this
      · intro p hp
        have : ¬ p.1 = k := by
          rw [List.any_eq_false] at h
          have := h p hp
          simpa using this
        simp [this]
    rw [h1]
    simp

/-- Claim C8 (amended): only the first question is parsed and used for
record-store matching, and only the first question's raw bytes are
echoed into the response — the serialized response continues with the
answer resource record immediately after the first question, so the raw
bytes of additional questions (contained in `tl` after the first
question's 4-byte type/class) are not preserved. -/
theorem C8_amended_first_question_only (store : RecordStore) (record : DNSRecord)
    (msg : List Nat) (q0 q1 f0 f1 d0 d1 n0 n1 r0 r1 r2 r3 : Nat)
    (labels : List (List Nat)) (tl : List Nat) (a b c d : Int)
    (hmsg : msg = [q0, q1, f0, f1, d0, d1, n0, n1, r0, r1, r2, r3]
      ++ encodeLabels labels ++ 0 :: tl)
    (hwf : wfLabels labels)
    (hnl : (encodeLabels labels).length ≤ 254)
    (htl : 4 ≤ tl.length)
    (hrec : mapGet store (lowerBytes (List.intercalate [46] labels)) = some record)
    (htype : record.type = "A")
    (httl : record.ttl ≤ 4294967295)
    (hval : (jsSplit record.value).map jsParseInt = [some a, some b, some c, some d])
    (hva : 0 ≤ a ∧ a ≤ 255) (hvb : 0 ≤ b ∧ b ≤ 255)
    (hvc : 0 ≤ c ∧ c ≤ 255) (hvd : 0 ≤ d ∧ d ≤ 255) :
    handleDNSQuery store msg
      = .respond ([q0, q1, 129, 128, d0, d1, 0, 1, r0, r1, r2, r3]
          ++ encodeLabels labels ++ [0] ++ tl.take 4
          ++ [192, 12, 0, 1, 0, 1] ++ be32 record.ttl
          ++ [0, 4, a.toNat, b.toNat, c.toNat, d.toNat])
    ∧ ∃ q, parseDNSQuery msg = some q
        ∧ q.domain = List.intercalate [46] labels := by
  have hmsg2 : msg = [q0, q1, f0, f1, d0, d1, n0, n1, r0, r1, r2, r3]
      ++ (encodeLabels labels ++ (0 :: tl)) := by
    rw [hmsg]
    simp
  have hp := parseDNSQuery_spec [q0, q1, f0, f1, d0, d1, n0, n1, r0, r1, r2, r3]
    labels tl rfl hwf htl
  rw [← hmsg2] at hp
  have hcr := createDNSResponse_A_spec
    ⟨⟨u16 [q0, q1, f0, f1, d0, d1, n0, n1, r0, r1, r2, r3] 0,
      u16 [q0, q1, f0, f1, d0, d1, n0, n1, r0, r1, r2, r3] 2,
      u16 [q0, q1, f0, f1, d0, d1, n0, n1, r0, r1, r2, r3] 4,
      u16 [q0, q1, f0, f1, d0, d1, n0, n1, r0, r1, r2, r3] 6,
      u16 [q0, q1, f0, f1, d0, d1, n0, n1, r0, r1, r2, r3] 8,
      u16 [q0, q1, f0, f1, d0, d1, n0, n1, r0, r1, r2, r3] 10⟩,
      List.intercalate [46] labels, u16 tl 0, u16 tl 2⟩
    record msg q0 q1 f0 f1 d0 d1 n0 n1 r0 r1 r2 r3 labels tl a b c d
    hmsg2 hwf hnl htl htype httl hval hva hvb hvc hvd
  constructor
  · simp only [handleDNSQuery, hp, hrec, hcr, List.append_assoc, List.cons_append,
      List.nil_append]
  · exact ⟨_, hp, rfl⟩

/-- Claim C4 (amended): a stored record whose type is not `A` is still
served with answer type code 1 (the source writes
`record.type === 'A' ? 1 : 1`), not its own type code, and its resource
data is not encoded: the response ends right after the answer TTL with
no rdlength/rdata.  The bytes `0, 1` following the `192, 12` compression
pointer are the wire type field of the appended answer record. -/
theorem C4_amended_type_field_always_one (store : RecordStore) (record : DNSRecord)
    (msg : List Nat) (q0 q1 f0 f1 d0 d1 n0 n1 r0 r1 r2 r3 : Nat)
    (labels : List (List Nat)) (tl : List Nat)
    (hmsg : msg = [q0, q1, f0, f1, d0, d1, n0, n1, r0, r1, r2, r3]
      ++ encodeLabels labels ++ 0 :: tl)
    (hwf : wfLabels labels)
    (hnl : (encodeLabels labels).length ≤ 254)
    (htl : 4 ≤ tl.length)
    (hrec : mapGet store (lowerBytes (List.intercalate [46] labels)) = some record)
    (htype : record.type ≠ "A")
    (httl : record.ttl ≤ 4294967295) :
    handleDNSQuery store msg
      = .respond ([q0, q1, 129, 128, d0, d1, 0, 1, r0, r1, r2, r3]
          ++ encodeLabels labels ++ [0] ++ tl.take 4
          ++ [192, 12, 0, 1, 0, 1] ++ be32 record.ttl) := by
  have hmsg2 : msg = [q0, q1, f0, f1, d0, d1, n0, n1, r0, r1, r2, r3]
      ++ (encodeLabels labels ++ (0 :: tl)) := by
    rw [hmsg]
    simp
  have hp := parseDNSQuery_spec [q0, q1, f0, f1, d0, d1, n0, n1, r0, r1, r2, r3]
    labels tl rfl hwf htl
  rw [← hmsg2] at hp
  have hcr := createDNSResponse_nonA_spec
    ⟨⟨u16 [q0, q1, f0, f1, d0, d1, n0, n1, r0, r1, r2, r3] 0,
      u16 [q0, q1, f0, f1, d0, d1, n0, n1, r0, r1, r2, r3] 2,
      u16 [q0, q1, f0, f1, d0, d1, n0, n1, r0, r1, r2, r3] 4,
      u16 [q0, q1, f0, f1, d0, d1, n0, n1, r0, r1, r2, r3] 6,
      u16 [q0, q1, f0, f1, d0, d1, n0, n1, r0, r1, r2, r3] 8,
      u16 [q0, q1, f0, f1, d0, d1, n0, n1, r0, r1, r2, r3] 10⟩,
      List.intercalate [46] labels, u16 tl 0, u16 tl 2⟩
    record msg q0 q1 f0 f1 d0 d1 n0 n1 r0 r1 r2 r3 labels tl
    hmsg2 hwf hnl htl htype httl
  simp only [handleDNSQuery, hp, hrec, hcr, List.append_assoc, List.cons_append,
    List.nil_append]

/-- Claim C10 (amended): when serializing a matched record throws (for
example an A record whose value has a part that does not parse to an
integer 0-255), the dispatcher's catch block sends the synthesized error
response, which preserves the query's transaction id in bytes 0-1
(`msg.take 2`). -/
theorem C10_amended_serializer_throw_caught (store : RecordStore)
    (msg : List Nat) (q : DNSQuery) (record : DNSRecord)
    (hlen : 4 ≤ msg.length)
    (hp : parseDNSQuery msg = some q)
    (hg : mapGet store (lowerBytes q.domain) = some record)
    (hser : createDNSResponse q record msg = none) :
    handleDNSQuery store msg
      = .errorRespond (msg.take 2 ++ [129, 131] ++ msg.drop 4) := by
  simp only [handleDNSQuery, hp, hg, hser, createDNSErrorResponse_shape msg hlen]

/-- Claim C5 (amended): for every original datagram of length at least
4, the synthesized error response has the same length as the original
and is byte-for-byte identical to it except bytes 2-3, which carry the
response/name-error flags `0x81 0x83`; in particular the transaction id
in bytes 0-1 is preserved.  (For shorter datagrams the flag write throws
and no response is produced — see the counterexample.) -/
theorem C5_amended_error_response_shape (msg : List Nat) (h : 4 ≤ msg.length) :
    createDNSErrorResponse msg
      = some (msg.take 2 ++ [129, 131] ++ msg.drop 4) :=
  createDNSErrorResponse_shape msg h

/-- Claim C5, counterexample: on a 3-byte datagram the claim fails — the
error serializer itself throws (writing the flags at offset 2 is out of
range for a copy shorter than 4 bytes), so no synthesized error response
exists at all, let alone one identical to the original outside bytes
2-3. -/
theorem C5_counterexample_short_datagram : createDNSErrorResponse [0, 0, 0] = none := by
  rfl

/-- Claim C7 (amended): every answer datagram built by serialize-answer
is at most 512 bytes (it is a slice of the fixed 512-byte buffer), but a
synthesized error response always has exactly the length of the
original inbound datagram, so it exceeds 512 bytes whenever the inbound
datagram does — see the counterexample with a 513-byte datagram. -/
theorem C7_amended_response_size :
    (∀ (query : DNSQuery) (record : DNSRecord) (originalMsg r : List Nat),
      createDNSResponse query record originalMsg = some r → r.length ≤ 512)
    ∧ (∀ (originalMsg e : List Nat),
      createDNSErrorResponse originalMsg = some e → e.length = originalMsg.length) :=
  ⟨createDNSResponse_length, createDNSErrorResponse_length⟩

/-- Claim C7, counterexample: a 513-byte malformed inbound datagram is
answered with a 513-byte synthesized error response, exceeding the
claimed 512-byte ceiling. -/
theorem C7_counterexample_oversized_error_response :
    handleDNSQuery [] bigMsg
      = .errorRespond (255 :: 255 :: 129 :: 131 :: List.replicate 509 255)
    ∧ 512 < (255 :: 255 :: 129 :: 131 :: List.replicate 509 255).length := by
  constructor
  · rfl
  · simp

/-- Claim C3: the code crashes on datagrams shorter than 4 bytes.  The
parse of the 3-byte datagram `[0, 0, 0]` fails (the header read at
offset 2 is out of range), and inside the catch block
`createDNSErrorResponse` itself throws (flag write at offset 2 into a
3-byte buffer), so the exception escapes `handleDNSQuery` and no error
response is sent — contradicting the claim that every parse failure is
answered with an error response without crashing. -/
theorem C3_short_datagram_crash :
    parseDNSQuery [0, 0, 0] = none ∧ handleDNSQuery [] [0, 0, 0] = .crash := by
  constructor <;> rfl

/-- Claim C2: the 5-second timer of `forwardDNSQuery` is never cleared,
so when the upstream reply arrives before the deadline (scenario
`replyBeforeTimeout = true`) the later-completing timeout path is not a
no-op: it calls `close()` on the already-closed ephemeral socket, which
throws — an externally visible exception after the relayed datagram.
When no reply arrives, the timeout path alone fires and sends the
synthesized error response, as the claim describes. -/
theorem C2_forward_timer_fires_after_relay :
    forwardTrace qMsg [9, 9] true
      = [.relayToClient [9, 9], .exception]
    ∧ forwardTrace qMsg [9, 9] false
      = [.errorToClient (qMsg.take 2 ++ [129, 131] ++ qMsg.drop 4)] := by
  constructor <;> rfl

/-- Claim C9: adding the same record twice equals adding it once (both
as stores and for every lookup), removing an absent domain returns
false and leaves the store unchanged, and removing a present domain
returns true. -/
theorem C9_store_idempotence_and_remove (s : RecordStore) (dom : List Nat)
    (t v : String) (ttl : Nat) :
    (addRecord (addRecord s dom t v ttl) dom t v ttl = addRecord s dom t v ttl)
    ∧ (∀ q : List Nat, mapGet (addRecord (addRecord s dom t v ttl) dom t v ttl) q
        = mapGet (addRecord s dom t v ttl) q)
    ∧ (mapGet s (lowerBytes dom) = none → removeRecord s dom = (false, s))
    ∧ (∀ r, mapGet s (lowerBytes dom) = some r → (removeRecord s dom).1 = true) := by
  have hidem : addRecord (addRecord s dom t v ttl) dom t v ttl
      = addRecord s dom t v ttl := by
    unfold addRecord
    exact mapSet_idem _ _ _
  refine ⟨hidem, fun q => by rw [hidem], ?_, ?_⟩
  · intro hnone
    have hfind : s.find? (fun p => p.1 = lowerBytes dom) = none := by
      unfold mapGet at hnone
      exact Option.map_eq_none.1 hnone
    rw [List.find?_eq_none] at hfind
    unfold removeRecord mapDelete
    have hany : s.any (fun p => p.1 = lowerBytes dom) = false := by
      rw [List.any_eq_false]
      intro p hp
      have := hfind p hp
      simpa using this
    rw [hany]
    have hfilter : s.filter (fun p => ¬ p.1 = lowerBytes dom) = s := by
      rw [List.filter_eq_self]
      intro p hp
      have := hfind p hp
      simpa using this
    rw [hfilter]
  · intro r hr
    unfold mapGet at hr
    obtain ⟨p, hp, hpr⟩ := Option.map_eq_some'.1 hr
    have hmem := List.mem_of_find?_eq_some hp
    have hpred := List.find?_some hp
    unfold removeRecord mapDelete
    rw [List.any_eq_true]
    exact ⟨p, hmem, hpred⟩

/-- Claim C4, counterexample: a stored AAAA record served as a local hit
gets answer type field 1 (bytes 21-22 of the response, `u16 · 21`), not
the AAAA type code 28 the claim requires. -/
theorem C4_counterexample_aaaa_tagged_as_type1 :
    handleDNSQuery qStoreAAAA qMsgAAAA
      = .respond ([0, 42, 129, 128, 0, 1, 0, 1, 0, 0, 0, 0]
          ++ [1, 120, 0] ++ [0, 28, 0, 1]
          ++ [192, 12, 0, 1, 0, 1, 0, 0, 1, 44])
    ∧ u16 ([0, 42, 129, 128, 0, 1, 0, 1, 0, 0, 0, 0]
          ++ [1, 120, 0] ++ [0, 28, 0, 1]
          ++ [192, 12, 0, 1, 0, 1, 0, 0, 1, 44]) 21 = 1 := by
  constructor
  · rfl
  · rfl

/-- Claim C8, counterexample: a two-question query (`qdcount` 2) for a
stored domain is answered with a response whose question section holds
only the first question; the second question's raw bytes
`[1, 121, 0, 0, 1, 0, 1]` (present at offset 19 of the query) appear
nowhere in the response — the answer record sits where they would be. -/
theorem C8_counterexample_second_question_dropped :
    handleDNSQuery qStore qMsgTwo
      = .respond ([0, 7, 129, 128, 0, 2, 0, 1, 0, 0, 0, 0]
          ++ [1, 120, 0] ++ [0, 1, 0, 1]
          ++ [192, 12, 0, 1, 0, 1, 0, 0, 1, 44, 0, 4, 1, 2, 3, 4])
    ∧ (qMsgTwo.drop 19).take 7 = [1, 121, 0, 0, 1, 0, 1]
    ∧ ¬ [1, 121, 0, 0, 1, 0, 1] <:+: ([0, 7, 129, 128, 0, 2, 0, 1, 0, 0, 0, 0]
          ++ [1, 120, 0] ++ [0, 1, 0, 1]
          ++ [192, 12, 0, 1, 0, 1, 0, 0, 1, 44, 0, 4, 1, 2, 3, 4]) := by
  refine ⟨by rfl, by rfl, by decide⟩

/-- Claim C10, counterexample: the A record value `1.2.3` is not a
dotted-quad, yet serving it does not throw — the serializer writes the
three parsed octets and returns a normal success response (flags
`0x8180`), so the client does not receive the synthesized error
response the claim requires. -/
theorem C10_counterexample_three_part_value_normal_response :
    handleDNSQuery qStoreThreeParts qMsg
      = .respond ([0, 42, 129, 128, 0, 1, 0, 1, 0, 0, 0, 0]
          ++ [1, 120, 0] ++ [0, 1, 0, 1]
          ++ [192, 12, 0, 1, 0, 1, 0, 0, 1, 44, 0, 4, 1, 2, 3]) := by
  rfl

/-- Witness for C1 at a concrete input: store `x ↦ A 1.2.3.4 ttl 300`,
query id 42 for `x`. -/
theorem C1_local_hit_response_witness :
    handleDNSQuery qStore qMsg
      = .respond ([0, 42, 129, 128, 0, 1, 0, 1, 0, 0, 0, 0]
          ++ encodeLabels [[120]] ++ [0] ++ ([0, 1, 0, 1] : List Nat).take 4
          ++ [192, 12, 0, 1, 0, 1] ++ be32 300
          ++ [0, 4, (1 : Int).toNat, (2 : Int).toNat, (3 : Int).toNat,
              (4 : Int).toNat]) :=
  C1_local_hit_response qStore ⟨"A", "1.2.3.4", 300⟩ qMsg 0 42 1 0 0 0 0 0 0 0
    [[120]] [0, 1, 0, 1] 1 2 3 4 rfl (by decide) (by decide) (by decide)
    (by decide) rfl (by decide) (by decide) (by decide) (by decide) (by decide)
    (by decide)

/-- Witness for C6 at the same concrete input. -/
theorem C6_parse_serialize_roundtrip_witness :
    ∃ q R q2, parseDNSQuery qMsg = some q
      ∧ createDNSResponse q ⟨"A", "1.2.3.4", 300⟩ qMsg = some R
      ∧ parseDNSQuery R = some q2
      ∧ q2.domain = q.domain ∧ q2.type = q.type :=
  C6_parse_serialize_roundtrip ⟨"A", "1.2.3.4", 300⟩ qMsg 0 42 1 0 0 0 0 0 0 0
    [[120]] [0, 1, 0, 1] 1 2 3 4 rfl (by decide) (by decide) (by decide)
    (by decide) (by decide) (by decide) (by decide) (by decide) (by decide)
    (by decide)

/-- Witness for C8 at the two-question query. -/
theorem C8_amended_first_question_only_witness :
    (handleDNSQuery qStore qMsgTwo
      = .respond ([0, 7, 129, 128, 0, 2, 0, 1, 0, 0, 0, 0]
          ++ encodeLabels [[120]] ++ [0]
          ++ ([0, 1, 0, 1, 1, 121, 0, 0, 1, 0, 1] : List Nat).take 4
          ++ [192, 12, 0, 1, 0, 1] ++ be32 300
          ++ [0, 4, (1 : Int).toNat, (2 : Int).toNat, (3 : Int).toNat,
              (4 : Int).toNat]))
    ∧ ∃ q, parseDNSQuery qMsgTwo = some q
        ∧ q.domain = List.intercalate [46] [[120]] :=
  C8_amended_first_question_only qStore ⟨"A", "1.2.3.4", 300⟩ qMsgTwo
    0 7 1 0 0 2 0 0 0 0 0 0 [[120]] [0, 1, 0, 1, 1, 121, 0, 0, 1, 0, 1]
    1 2 3 4 rfl (by decide) (by decide) (by decide) (by decide) rfl
    (by decide) (by decide) (by decide) (by decide) (by decide) (by decide)

/-- Witness for C4 (amended) at the AAAA input. -/
theorem C4_amended_type_field_always_one_witness :
    handleDNSQuery qStoreAAAA qMsgAAAA
      = .respond ([0, 42, 129, 128, 0, 1, 0, 1, 0, 0, 0, 0]
          ++ encodeLabels [[120]] ++ [0] ++ ([0, 28, 0, 1] : List Nat).take 4
          ++ [192, 12, 0, 1, 0, 1] ++ be32 300) :=
  C4_amended_type_field_always_one qStoreAAAA ⟨"AAAA", "::1", 300⟩ qMsgAAAA
    0 42 1 0 0 1 0 0 0 0 0 0 [[120]] [0, 28, 0, 1] rfl (by decide) (by decide)
    (by decide) (by decide) (by decide) (by decide)

/-- Witness for C5 (amended) at a concrete 5-byte datagram. -/
theorem C5_amended_error_response_shape_witness :
    createDNSErrorResponse [1, 2, 3, 4, 5]
      = some (([1, 2, 3, 4, 5] : List Nat).take 2 ++ [129, 131]
          ++ ([1, 2, 3, 4, 5] : List Nat).drop 4) :=
  C5_amended_error_response_shape [1, 2, 3, 4, 5] (by decide)

/-- Witness for C7 (amended) at concrete inputs: the answer for `qMsg`
and the error response for `qMsg`. -/
theorem C7_amended_response_size_witness :
    (([0, 42, 129, 128, 0, 1, 0, 1, 0, 0, 0, 0, 1, 120, 0, 0, 1, 0, 1,
        192, 12, 0, 1, 0, 1, 0, 0, 1, 44, 0, 4, 1, 2, 3, 4] : List Nat).length ≤ 512)
    ∧ (([0, 42, 129, 131, 0, 1, 0, 0, 0, 0, 0, 0, 1, 120, 0, 0, 1, 0, 1]
        : List Nat).length = qMsg.length) :=
  ⟨C7_amended_response_size.1 ⟨⟨42, 256, 1, 0, 0, 0⟩, [120], 1, 1⟩
      ⟨"A", "1.2.3.4", 300⟩ qMsg
      [0, 42, 129, 128, 0, 1, 0, 1, 0, 0, 0, 0, 1, 120, 0, 0, 1, 0, 1,
        192, 12, 0, 1, 0, 1, 0, 0, 1, 44, 0, 4, 1, 2, 3, 4] rfl,
    C7_amended_response_size.2 qMsg
      [0, 42, 129, 131, 0, 1, 0, 0, 0, 0, 0, 0, 1, 120, 0, 0, 1, 0, 1] rfl⟩

/-- Witness for C9 at concrete stores. -/
theorem C9_store_idempotence_and_remove_witness :
    removeRecord [] [120] = (false, []) ∧ (removeRecord qStore [120]).1 = true :=
  ⟨(C9_store_idempotence_and_remove [] [120] "A" "x" 300).2.2.1 rfl,
    (C9_store_idempotence_and_remove qStore [120] "A" "x" 300).2.2.2
      ⟨"A", "1.2.3.4", 300⟩ rfl⟩

/-- Witness for C10 (amended): the A record value `hello` makes the
serializer throw, and the dispatcher answers with the error response
carrying the query's transaction id. -/
theorem C10_amended_serializer_throw_caught_witness :
    handleDNSQuery qStoreHello qMsg
      = .errorRespond (qMsg.take 2 ++ [129, 131] ++ qMsg.drop 4) :=
  C10_amended_serializer_throw_caught qStoreHello qMsg
    ⟨⟨42, 256, 1, 0, 0, 0⟩, [120], 1, 1⟩ ⟨"A", "hello", 300⟩
    (by decide) (by decide) (by decide) (by decide)

end Alodek
